import Mathlib

/-!
# Physics2DWithConsole: the kinematics core (Vector, Body, World)

A shallow embedding of `Vector.h`, `Matrix.h`, `Matrix.cpp`, `Body.cpp` and `World.cpp`.

* `Vector<C>` is a C++ template; here the scalar type `C` is any linearly ordered field with a
  floor function (for the implicit `double -> int` conversion) and a square root (`CMath`).
  `double` arithmetic is read as exact field arithmetic.
* `components[12]` is a function `Fin 12 → C`; `int size` is an `Int`.
* A C++ member function that mutates `*this` is a function returning the new value of the object.
-/

set_option linter.unusedSectionVars false

namespace Physics2D

/-- The part of `<cmath>` the vector class uses: `sqrt`, with the two laws of the mathematical
square root that the statements below rely on. -/
class CMath (C : Type) [LinearOrderedField C] where
  sqrt : C → C
  sqrt_zero : sqrt 0 = 0
  sqrt_mul_self : ∀ a : C, sqrt (a * a) = |a|

/-- The rational instance, used to evaluate the code on concrete inputs; `Rat.sqrt` is exact on
the squares of rationals. -/
instance : CMath ℚ where
  sqrt := Rat.sqrt
  sqrt_zero := by simp [Rat.sqrt]
  sqrt_mul_self := Rat.sqrt_eq

/-- The part of `<cmath>` the matrix class uses: `cos` and `sin`, with the laws of the
trigonometric functions that the statements below rely on. -/
class CTrig (C : Type) [LinearOrderedField C] where
  cos : C → C
  sin : C → C
  cos_zero : cos 0 = 1
  sin_zero : sin 0 = 0
  cos_neg : ∀ t : C, cos (-t) = cos t
  sin_neg : ∀ t : C, sin (-t) = -sin t
  cos_sq_add_sin_sq : ∀ t : C, cos t * cos t + sin t * sin t = 1

/-- The rational instance, used to evaluate the code on concrete inputs. So that `cos` and
`sin` stay rational, this instance measures an angle by the tangent of its half: `t = 0` is
the zero angle and `t = 1` the right angle (`cos = 0`, `sin = 1`). -/
instance : CTrig ℚ where
  cos t := (1 - t * t) / (1 + t * t)
  sin t := 2 * t / (1 + t * t)
  cos_zero := by norm_num
  sin_zero := by norm_num
  cos_neg t := by simp
  sin_neg t := by ring
  cos_sq_add_sin_sq t := by
    have h : (1 + t * t) ≠ 0 := ne_of_gt (by nlinarith [mul_self_nonneg t])
    field_simp
    ring

variable {C : Type} [LinearOrderedField C] [FloorRing C] [CMath C]

/-- The implicit conversion `double -> int`: truncation toward zero. The source converts to a
32-bit `int` and the conversion of a value outside its range is undefined; here the result
is an unbounded `Int`, and `Body.UpdateInBounds` states the range. -/
def toInt (a : C) : Int := if 0 ≤ a then Int.floor a else Int.ceil a

/-- The loop `for (int i = 0; i < n; ++i) body(i)` where `i` indexes the twelve slots of a
backing store. The source loops run to `n` with no other bound: for `n > 12` they index past
the store, which is undefined behaviour, whereas this loop stops at slot 12. The two agree
exactly when `n ≤ 12`; `Body.UpdateInBounds` states that condition for `Body::Update`. -/
def forLoop {σ : Type} (n : Int) (body : Fin 12 → σ → σ) (s : σ) : σ :=
  (List.finRange 12).foldl
    (fun (acc : σ) (i : Fin 12) => if (i.val : Int) < n then body i acc else acc) s

/-- The class `Vector<C>`: data members in the order of `Vector.h`. -/
structure Vector (C : Type) where
  x : C
  y : C
  z : C
  size : Int
  components : Fin 12 → C
  length : C
  sqr_length : C

namespace Vector

/-- `Vector<C>::updatelen()`. -/
def updatelen (v : Vector C) : Vector C :=
  let s : C := forLoop v.size (fun i acc => acc + v.components i * v.components i) 0
  { v with sqr_length := s, length := CMath.sqrt s }

/-- `Vector<C>::syncComponents()`. -/
def syncComponents (v : Vector C) : Vector C :=
  let c0 := if v.size > 0 then Function.update v.components 0 v.x else v.components
  let c1 := if v.size > 1 then Function.update c0 1 v.y else c0
  let c2 := if v.size > 2 then Function.update c1 2 v.z else c1
  updatelen { v with components := c2 }

/-- The three statements `if (size > 0) x = components[0]; if (size > 1) y = components[1];
if (size > 2) z = components[2];` shared by the constructor, `set(C[])` and `operator=`. -/
def loadXYZ (v : Vector C) : Vector C :=
  let v1 := if v.size > 0 then { v with x := v.components 0 } else v
  let v2 := if v1.size > 1 then { v1 with y := v1.components 1 } else v1
  if v2.size > 2 then { v2 with z := v2.components 2 } else v2

/-- `Vector<C>::Vector()`. -/
def new : Vector C :=
  { size := 0, x := 0, y := 0, z := 0, length := 0, sqr_length := 0,
    components := forLoop 12 (fun i c => Function.update c i 0) (fun _ => 0) }

/-- `Vector<C>::Vector(int s)`. -/
def ofSize (s : Int) : Vector C :=
  let v : Vector C :=
    { size := s, x := 0, y := 0, z := 0, length := 0, sqr_length := 0,
      components := forLoop 12 (fun i c => Function.update c i 0) (fun _ => 0) }
  syncComponents (loadXYZ v)

/-- `Vector<C>::set(C x1, C y1)`. -/
def set (v : Vector C) (x1 y1 : C) : Vector C :=
  if v.size < 2 then v
  else syncComponents { v with x := x1, y := y1 }

/-- `Vector<C>::set(C x1, C y1, C z1)`. -/
def set3 (v : Vector C) (x1 y1 z1 : C) : Vector C :=
  if v.size < 3 then v
  else syncComponents { v with x := x1, y := y1, z := z1 }

/-- `Vector<C>::set(C _components[])`. -/
def setArray (v : Vector C) (arr : Fin 12 → C) : Vector C :=
  let c := forLoop v.size (fun i c => Function.update c i (arr i)) v.components
  updatelen (loadXYZ { v with components := c })

/-- `Vector<C>::normalizedVec()`. -/
def normalizedVec (v : Vector C) : Vector C :=
  let B : Vector C := ofSize v.size
  let len : C := CMath.sqrt v.sqr_length
  let comps : Fin 12 → C :=
    forLoop v.size (fun i c => Function.update c i (v.components i / len)) B.components
  { B with components := comps }

/-- `Vector<C>::scalarMult(C n)`. -/
def scalarMult (v : Vector C) (n : C) : Vector C :=
  let comps : Fin 12 → C :=
    forLoop v.size (fun i c => Function.update c i (c i * n)) v.components
  updatelen { v with components := comps }

/-- `Vector<C>::normalize()`. -/
def normalize (v : Vector C) : Vector C :=
  let len : C := CMath.sqrt v.sqr_length
  scalarMult v (1 / len)

/-- `Vector<C>::dotProduct(Vector<C> B)`. -/
def dotProduct (v B : Vector C) : C :=
  let minimum := min B.size v.size
  forLoop minimum (fun i sum => sum + B.components i * v.components i) 0

/-- `Vector<C>::crossProduct(Vector<C> B)`. -/
def crossProduct (v B : Vector C) : Vector C :=
  if v.size = 2 ∧ B.size = 2 then
    let result : Vector C := ofSize 1
    { result with components := Function.update result.components 0 (v.x * B.y - v.y * B.x) }
  else if v.size = 3 ∧ B.size = 3 then
    let result : Vector C := ofSize 3
    let c0 := Function.update result.components 0 (v.y * B.z - v.z * B.y)
    let c1 := Function.update c0 1 (v.z * B.x - v.x * B.z)
    let c2 := Function.update c1 2 (v.x * B.y - v.y * B.x)
    { result with components := c2 }
  else ofSize 0

/-- `Vector<C>::cosine(Vector<C> B)`. -/
def cosine (v B : Vector C) : C :=
  v.normalizedVec.dotProduct B.normalizedVec

/-- `Vector<C>::sine(Vector<C> B)`. -/
def sine (v B : Vector C) : C :=
  let c : C := v.cosine B
  CMath.sqrt (1 - c * c)

/-- `Vector<C>::operator+(const Vector<C>& B)`. -/
def add (v B : Vector C) : Vector C :=
  let result : Vector C := ofSize v.size
  let minimum := min v.size B.size
  let comps : Fin 12 → C :=
    forLoop minimum (fun i c => Function.update c i (v.components i + B.components i))
      result.components
  updatelen { result with components := comps }

/-- `Vector<C>::operator-(const Vector<C>& B)`. -/
def sub (v B : Vector C) : Vector C :=
  let result : Vector C := ofSize v.size
  let minimum := min v.size B.size
  let comps : Fin 12 → C :=
    forLoop minimum (fun i c => Function.update c i (v.components i - B.components i))
      result.components
  updatelen { result with components := comps }

/-- `Vector<C>::operator*(C scalar)`. -/
def mul (v : Vector C) (scalar : C) : Vector C :=
  let result : Vector C := ofSize v.size
  let comps : Fin 12 → C :=
    forLoop v.size (fun i c => Function.update c i (v.components i * scalar))
      result.components
  updatelen { result with components := comps }

/-- `Vector<C>::operator/(C scalar)`. -/
def div (v : Vector C) (scalar : C) : Vector C :=
  let result : Vector C := ofSize v.size
  let comps : Fin 12 → C :=
    forLoop v.size (fun i c => Function.update c i (v.components i / scalar))
      result.components
  updatelen { result with components := comps }

/-- `Vector<C>::operator=(const Vector<C>& B)`: the new value of `*this`. The early return for
`this == &B` is not modelled; every assignment in `Body.cpp` and `World.cpp` has a temporary
on its right-hand side. -/
def assign (v B : Vector C) : Vector C :=
  let v1 : Vector C := { v with size := B.size }
  let comps : Fin 12 → C :=
    forLoop v1.size (fun i c => Function.update c i (B.components i)) v1.components
  let v2 : Vector C := { v1 with components := comps }
  let v3 := loadXYZ v2
  { v3 with sqr_length := B.sqr_length, length := B.length }

/-- `Vector<C>::Zero(int dimension)`. -/
def Zero (dimension : Int) : Vector C :=
  let zeroVec : Vector C := ofSize dimension
  let comps : Fin 12 → C :=
    forLoop dimension (fun i c => Function.update c i 0) zeroVec.components
  updatelen { zeroVec with components := comps }

end Vector

/-- The leaves of the abstract class `Shape` (`Circle.h`, `ConvexPolygon.h`): render-only data
that the kinematics never reads. -/
inductive Shape (C : Type) where
  | Circle (radius : C) : Shape C
  | ConvexPolygon (vertices normals : List (Vector C)) : Shape C

/-- The class `Body`: data members in the order of `Body.h`. -/
structure Body (C : Type) where
  shapes : List (Shape C)
  position : Vector C
  velocity : Vector C
  acceleration : Vector C
  gravity : Vector C
  angular_acc : Vector C
  angular_vel : Vector C
  rotation : Vector C
  mass : C
  inertia : C
  coeff_friction : C
  coeff_restitution : C
  force : Vector C
  torque : C
  normal : Vector C
  impulse : Vector C
  liniar_drag : Vector C
  angular_drag : Vector C
  center_of_mass : Vector C

namespace Body

/-- `Body::Body(pos, vel, m, force)`: the listed members are copy- or size-constructed, the
members absent from the initializer list (`shapes`, `normal`, `impulse`, `liniar_drag`,
`angular_drag`, `center_of_mass`) are default-constructed. -/
def new (pos vel : Vector C) (m : C) (force : Vector C) : Body C :=
  { shapes := []
    position := pos
    velocity := vel
    acceleration := Vector.ofSize 0
    gravity := Vector.ofSize 2
    angular_acc := Vector.ofSize 2
    angular_vel := Vector.ofSize 2
    rotation := Vector.ofSize 2
    mass := m
    inertia := 1
    coeff_friction := 1 / 2
    coeff_restitution := 1 / 2
    force := force
    torque := 0
    normal := Vector.new
    impulse := Vector.new
    liniar_drag := Vector.new
    angular_drag := Vector.new
    center_of_mass := Vector.new }

/-- `Body::Update(double deltaTime)`. Every `=` on an existing vector is `Vector::operator=`;
the right-hand side of `angular_acc = (torque + drag_torque.x) / inertia` is a `double`, which
reaches `operator=` through the converting constructor `Vector(int)`. -/
def Update (b : Body C) (deltaTime : C) : Body C :=
  let drag_force : Vector C := b.liniar_drag.mul (-1)
  let drag_force : Vector C := drag_force.assign (drag_force.mul b.velocity.x)
  let acceleration : Vector C :=
    b.acceleration.assign (((b.force.add drag_force).div b.mass).add b.gravity)
  let b : Body C := { b with acceleration := acceleration }
  let velocity : Vector C :=
    b.velocity.assign (b.velocity.add (b.acceleration.mul deltaTime))
  let b : Body C := { b with velocity := velocity }
  let position : Vector C :=
    b.position.assign (b.position.add (b.velocity.mul deltaTime))
  let b : Body C := { b with position := position }
  let b : Body C := { b with impulse := b.impulse.assign (Vector.ofSize 0) }
  let drag_torque : Vector C := b.angular_drag.mul (-1)
  let drag_torque : Vector C := drag_torque.assign (drag_torque.mul b.angular_vel.x)
  let angular_acc : Vector C :=
    b.angular_acc.assign (Vector.ofSize (toInt ((b.torque + drag_torque.x) / b.inertia)))
  let b : Body C := { b with angular_acc := angular_acc }
  let angular_vel : Vector C :=
    b.angular_vel.assign (b.angular_vel.add (b.angular_acc.mul deltaTime))
  let b : Body C := { b with angular_vel := angular_vel }
  { b with rotation := b.rotation.assign (b.rotation.add (b.angular_vel.mul deltaTime)) }

/-- The `int` that `Body::Update` passes to `Vector(int)` in the statement
`angular_acc = (torque + drag_torque.x) / inertia`. -/
def angularQuotient (b : Body C) : Int :=
  let drag_torque : Vector C := b.angular_drag.mul (-1)
  let drag_torque : Vector C := drag_torque.assign (drag_torque.mul b.angular_vel.x)
  toInt ((b.torque + drag_torque.x) / b.inertia)

/-- The condition under which `Body::Update` has defined behaviour in the source: every
vector it constructs or loops over fits the twelve slots of `components`, and the quotient
converted to `int` is in the range of `int`. The vectors are: `liniar_drag * (-1.0)` and
`drag_force * velocity.x` (size of `liniar_drag`); `force + drag_force`, `/ mass`,
`+ gravity` and `acceleration * deltaTime` (size of `force`); `velocity + ...` and
`velocity * deltaTime` (size of `velocity`); `position + ...` (size of `position`);
`angular_drag * (-1.0)` and `drag_torque * angular_vel.x` (size of `angular_drag`);
`Vector(int)` of the quotient and `angular_acc * deltaTime` (the quotient);
`angular_vel + ...` and `angular_vel * deltaTime` (size of `angular_vel`); `rotation + ...`
(size of `rotation`). A size that is zero or negative makes the loops run no iteration. -/
def UpdateInBounds (b : Body C) : Prop :=
  b.liniar_drag.size ≤ 12 ∧ b.force.size ≤ 12 ∧ b.velocity.size ≤ 12 ∧
    b.position.size ≤ 12 ∧ b.angular_drag.size ≤ 12 ∧
    (-2147483648 ≤ b.angularQuotient ∧ b.angularQuotient ≤ 12) ∧
    b.angular_vel.size ≤ 12 ∧ b.rotation.size ≤ 12

instance (b : Body C) : Decidable b.UpdateInBounds := by
  unfold UpdateInBounds
  infer_instance

/-- `Body::Update` with the undefined behaviour of the source made explicit: no result when a
loop would index past `components[11]` or the conversion to `int` is out of range, otherwise
the state computed by `Update`. -/
def UpdateChecked (b : Body C) (deltaTime : C) : Option (Body C) :=
  if b.UpdateInBounds then some (b.Update deltaTime) else none

end Body

/-- The class `World`: the list of owned bodies. -/
structure World (C : Type) where
  bodies : List (Body C)

namespace World

/-- The body of the range-for statement of `World::Update`, applied to one list element. -/
def updateBody (deltaTime : C) (b : Body C) : Body C :=
  let b : Body C := b.Update deltaTime
  let b : Body C := { b with force := b.force.assign (Vector.Zero 2) }
  { b with torque := 0 }

/-- The range-for statement of `World::Update`: `visited` holds the elements already passed
(in list order), the last argument the elements from the iterator to the end. -/
def updateLoop (deltaTime : C) : List (Body C) → List (Body C) → List (Body C)
  | visited, [] => visited
  | visited, b :: rest => updateLoop deltaTime (visited ++ [updateBody deltaTime b]) rest

/-- `World::Update(double deltaTime)`. -/
def Update (w : World C) (deltaTime : C) : World C :=
  { bodies := updateLoop deltaTime [] w.bodies }

/-- The range-for statement of `World::Update` with the undefined behaviour of
`Body::Update` made explicit: the loop has no result as soon as the update of one body has
none. -/
def updateLoopChecked (deltaTime : C) :
    List (Body C) → List (Body C) → Option (List (Body C))
  | visited, [] => some visited
  | visited, b :: rest =>
    if b.UpdateInBounds then
      updateLoopChecked deltaTime (visited ++ [updateBody deltaTime b]) rest
    else none

/-- `World::Update(double deltaTime)` with the undefined behaviour of `Body::Update` made
explicit. -/
def UpdateChecked (w : World C) (deltaTime : C) : Option (World C) :=
  match updateLoopChecked deltaTime [] w.bodies with
  | some l => some { bodies := l }
  | none => none

/-- `World::AddBody(positionX, positionY, velocityX, velocityY, initialForceX, initialForceY,
shp)`. -/
def AddBody (w : World C) (positionX positionY velocityX velocityY initialForceX
    initialForceY : C) (shp : Shape C) : World C :=
  let pos : Vector C := (Vector.ofSize 2).set positionX positionY
  let vel : Vector C := (Vector.ofSize 2).set velocityX velocityY
  let force : Vector C := (Vector.ofSize 2).set initialForceX initialForceY
  let body : Body C := Body.new pos vel 0.1 force
  let body : Body C := { body with shapes := body.shapes ++ [shp] }
  { bodies := w.bodies ++ [body] }

/-- `World::RemoveBody(size_t index)`. -/
def RemoveBody (w : World C) (index : Nat) : World C :=
  if index < w.bodies.length then { bodies := w.bodies.eraseIdx index }
  else w

/-- `World::ClearBodies()`. -/
def ClearBodies (_w : World C) : World C :=
  { bodies := [] }

end World

/-- The class `Matrix`: `double components[4]` (row-major 2x2) and `double angle`. -/
structure Matrix (C : Type) where
  components : Fin 4 → C
  angle : C

namespace Matrix

/-- `Matrix::set(double rad)`. -/
def set [CTrig C] (m : Matrix C) (rad : C) : Matrix C :=
  let c : C := CTrig.cos rad
  let s : C := CTrig.sin rad
  let comps : Fin 4 → C := Function.update m.components 0 c
  let comps : Fin 4 → C := Function.update comps 1 (-s)
  let comps : Fin 4 → C := Function.update comps 2 s
  let comps : Fin 4 → C := Function.update comps 3 c
  { components := comps, angle := rad }

/-- `Matrix::Matrix(double rad)`: `set(rad)` on the new object. The members hold no defined
value before the call; `set` overwrites all of them, so the placeholder zeros never show. -/
def new [CTrig C] (rad : C) : Matrix C :=
  set { components := fun _ => 0, angle := 0 } rad

/-- The statement `std::swap(components[1], components[2])`. -/
def swapOffDiagonal (c : Fin 4 → C) : Fin 4 → C :=
  Function.update (Function.update c 1 (c 2)) 2 (c 1)

/-- `Matrix::transpose()`. -/
def transpose [CTrig C] (m : Matrix C) : Matrix C :=
  let A : Matrix C := new m.angle
  { A with components := swapOffDiagonal A.components }

/-- `Matrix::transposeThis()`. -/
def transposeThis (m : Matrix C) : Matrix C :=
  { m with components := swapOffDiagonal m.components }

/-- `Matrix::operator*(Matrix rhs)`. -/
def mul [CTrig C] (m rhs : Matrix C) : Matrix C :=
  let M : Matrix C := new 0
  let comps : Fin 4 → C := Function.update M.components 0
    (m.components 0 * rhs.components 0 + m.components 1 * rhs.components 2)
  let comps : Fin 4 → C := Function.update comps 1
    (m.components 0 * rhs.components 1 + m.components 1 * rhs.components 3)
  let comps : Fin 4 → C := Function.update comps 2
    (m.components 2 * rhs.components 0 + m.components 3 * rhs.components 2)
  let comps : Fin 4 → C := Function.update comps 3
    (m.components 2 * rhs.components 1 + m.components 3 * rhs.components 3)
  { M with components := comps }

/-- `Matrix::operator*(Vector<C> rhs)`. -/
def mulVec (m : Matrix C) (rhs : Vector C) : Vector C :=
  let V : Vector C := Vector.ofSize 2
  V.set (m.components 0 * rhs.x + m.components 1 * rhs.y)
    (m.components 2 * rhs.x + m.components 3 * rhs.y)

/-- The rotation-matrix invariant: the components are `(cos a, -sin a, sin a, cos a)` for the
stored angle `a`. -/
def RotOK [CTrig C] (m : Matrix C) : Prop :=
  m.components 0 = CTrig.cos m.angle ∧ m.components 1 = -CTrig.sin m.angle ∧
    m.components 2 = CTrig.sin m.angle ∧ m.components 3 = CTrig.cos m.angle

instance (m : Matrix ℚ) : Decidable m.RotOK := by
  unfold RotOK
  infer_instance

end Matrix

/-! ## State predicates and concrete inputs -/

namespace Vector

/-- The sum of the squares of the first `size` components. -/
def sumSq (v : Vector C) : C :=
  ∑ i : Fin 12, if (i.val : Int) < v.size then v.components i * v.components i else 0

/-- The mirror invariant: `x`, `y`, `z` equal `components[0]`, `[1]`, `[2]` as far as `size`
permits. -/
def Mirror (v : Vector C) : Prop :=
  (0 < v.size → v.x = v.components 0) ∧ (1 < v.size → v.y = v.components 1) ∧
    (2 < v.size → v.z = v.components 2)

/-- The cached-length invariant: `sqr_length` is the sum of the squares of the first `size`
components and `length` is its square root. -/
def LenOK (v : Vector C) : Prop :=
  v.sqr_length = v.sumSq ∧ v.length = CMath.sqrt v.sqr_length

/-- Every active component (index below `size`) is zero. -/
def IsZero (v : Vector C) : Prop :=
  ∀ j : Fin 12, (j.val : Int) < v.size → v.components j = 0

instance (v : Vector ℚ) : Decidable v.Mirror := by
  unfold Mirror
  infer_instance

instance (v : Vector ℚ) : Decidable v.LenOK := by
  unfold LenOK
  infer_instance

instance (v : Vector ℚ) : Decidable v.IsZero := by
  unfold IsZero
  infer_instance

end Vector

/-- Reordering of a list by a sequence of indices: position `k` of the result holds the element
that had index `p[k]`. For `p` a permutation of `0, ..., l.length - 1` this is the list
permuted by `p`. -/
def reorder {α : Type} (p : List Nat) (l : List α) : List α :=
  p.filterMap (fun i => l[i]?)

/-- The two-dimensional vector `(a, b)` as `World::AddBody` builds it: `Vector v(2);
v.set(a, b);`. -/
def vec2 (a b : C) : Vector C := (Vector.ofSize 2).set a b

/-- A body as `World::AddBody(100, 200, 0, 0, 5, 0, shp)` constructs it, without the shape. -/
def sampleBody : Body ℚ := Body.new (vec2 100 200) (vec2 0 0) 0.1 (vec2 5 0)

/-- The sample body after its linear drag has been set to the two-dimensional zero vector. -/
def sampleBodyDrag2 : Body ℚ := { sampleBody with liniar_drag := Vector.Zero 2 }

/-- The sample body with zero force, linear drag set to the two-dimensional zero vector and a
velocity of `(3, 4)`. -/
def sampleBodyCoasting : Body ℚ :=
  { sampleBody with force := Vector.Zero 2, velocity := vec2 3 4, liniar_drag := Vector.Zero 2 }

/-- A world of two bodies. -/
def sampleWorld : World ℚ := { bodies := [sampleBody, sampleBodyCoasting] }

/-- The sample body with velocity `(3, 4)`, gravity `(0, -10)` and linear drag `(1, 2)`. -/
def sampleBodyDragged : Body ℚ :=
  { sampleBody with velocity := vec2 3 4, gravity := vec2 0 (-10), liniar_drag := vec2 1 2 }

/-- The sample body with torque 3, angular velocity `(1, 2)` and angular drag set to the
two-dimensional zero vector. -/
def sampleBodyTorqued : Body ℚ :=
  { sampleBody with torque := 3, angular_vel := vec2 1 2, angular_drag := Vector.Zero 2 }

/-- The sample body with angular velocity `(1, 2)`; torque 0 and the angular drag of the
constructor. -/
def sampleBodySpinning : Body ℚ := { sampleBody with angular_vel := vec2 1 2 }

/-- The sample body with torque 13; everything else as `AddBody` built it (inertia 1,
angular drag of dimension 0). -/
def sampleBodyTorque13 : Body ℚ := { sampleBody with torque := 13 }

/-- The sample body with an impulse of `(5, 7)`. -/
def sampleBodyHit : Body ℚ := { sampleBody with impulse := vec2 5 7 }

/-- The three-dimensional vector `(a, b, c)`: `Vector v(3); v.set(a, b, c);`. -/
def vec3 (a b c : C) : Vector C := (Vector.ofSize 3).set3 a b c

/-! ## Closed forms of the loops and of the vector operations -/

theorem foldl_update_apply (p : Fin 12 → Prop) [DecidablePred p] (g : Fin 12 → C → C)
    (l : List (Fin 12)) (hl : l.Nodup) (c0 : Fin 12 → C) (j : Fin 12) :
    (l.foldl (fun acc i => if p i then Function.update acc i (g i (acc i)) else acc) c0) j
      = if j ∈ l ∧ p j then g j (c0 j) else c0 j := by
  induction l generalizing c0 with
  | nil => simp
  | cons a l ih =>
    rw [List.nodup_cons] at hl
    rw [List.foldl_cons, ih hl.2]
    by_cases hja : j = a
    · subst hja
      by_cases hp : p j <;> simp [hl.1, hp]
    · by_cases hp : p a <;> simp [hja, hp, Function.update_noteq hja]

theorem forLoop_update (n : Int) (g : Fin 12 → C → C) (c0 : Fin 12 → C) :
    forLoop n (fun i c => Function.update c i (g i (c i))) c0
      = fun j : Fin 12 => if (j.val : Int) < n then g j (c0 j) else c0 j := by
  funext j
  unfold forLoop
  rw [foldl_update_apply (fun i : Fin 12 => (i.val : Int) < n) g _ (List.nodup_finRange 12)]
  simp

theorem foldl_sum (p : Fin 12 → Prop) [DecidablePred p] (t : Fin 12 → C)
    (l : List (Fin 12)) (a : C) :
    l.foldl (fun acc i => if p i then acc + t i else acc) a
      = a + (l.map (fun i => if p i then t i else 0)).sum := by
  induction l generalizing a with
  | nil => simp
  | cons b l ih =>
    rw [List.foldl_cons, ih]
    by_cases hp : p b <;> simp [hp, add_assoc]

theorem forLoop_sum (n : Int) (t : Fin 12 → C) (a : C) :
    forLoop n (fun i acc => acc + t i) a
      = a + ∑ i : Fin 12, if (i.val : Int) < n then t i else 0 := by
  unfold forLoop
  rw [foldl_sum (fun i : Fin 12 => (i.val : Int) < n) t, Fin.sum_univ_def]

theorem Vector.updatelen_eq (v : Vector C) :
    v.updatelen = { v with sqr_length := v.sumSq, length := CMath.sqrt v.sumSq } := by
  simp [Vector.updatelen, Vector.sumSq, forLoop_sum]


namespace Vector

theorem loadXYZ_eq (v : Vector C) :
    v.loadXYZ = { v with
      x := if 0 < v.size then v.components 0 else v.x
      y := if 1 < v.size then v.components 1 else v.y
      z := if 2 < v.size then v.components 2 else v.z } := by
  unfold loadXYZ
  by_cases h0 : 0 < v.size <;> by_cases h1 : 1 < v.size <;> by_cases h2 : 2 < v.size <;>
    simp [h0, h1, h2]

theorem ofSize_eq (s : Int) :
    (ofSize s : Vector C) =
      { x := 0, y := 0, z := 0, size := s, components := fun _ => 0,
        length := 0, sqr_length := 0 } := by
  have hc : forLoop 12 (fun i c => Function.update c i (0 : C)) (fun _ => 0) = fun _ => 0 := by
    rw [forLoop_update 12 (fun _ _ => (0 : C))]
    funext j
    simp
  have hu : ∀ k : Fin 12, Function.update (fun _ : Fin 12 => (0 : C)) k 0 = fun _ => 0 := by
    intro k
    funext j
    by_cases h : j = k <;> simp [h]
  unfold ofSize
  simp only [hc, loadXYZ_eq, syncComponents, updatelen_eq, sumSq, ite_self, hu]
  simp [CMath.sqrt_zero]

theorem new_eq :
    (Vector.new : Vector C) =
      { x := 0, y := 0, z := 0, size := 0, components := fun _ => 0,
        length := 0, sqr_length := 0 } := by
  have hc : forLoop 12 (fun i c => Function.update c i (0 : C)) (fun _ => 0) = fun _ => 0 := by
    rw [forLoop_update 12 (fun _ _ => (0 : C))]
    funext j
    simp
  simp [Vector.new, hc]


theorem add_eq (v B : Vector C) :
    v.add B = updatelen
      { x := 0, y := 0, z := 0, size := v.size, length := 0, sqr_length := 0,
        components := fun j : Fin 12 =>
          if (j.val : Int) < min v.size B.size then v.components j + B.components j else 0 } := by
  unfold add
  simp only [ofSize_eq]
  rw [forLoop_update (min v.size B.size) (fun i _ => v.components i + B.components i)]

theorem sub_eq (v B : Vector C) :
    v.sub B = updatelen
      { x := 0, y := 0, z := 0, size := v.size, length := 0, sqr_length := 0,
        components := fun j : Fin 12 =>
          if (j.val : Int) < min v.size B.size then v.components j - B.components j else 0 } := by
  unfold sub
  simp only [ofSize_eq]
  rw [forLoop_update (min v.size B.size) (fun i _ => v.components i - B.components i)]

theorem mul_eq (v : Vector C) (scalar : C) :
    v.mul scalar = updatelen
      { x := 0, y := 0, z := 0, size := v.size, length := 0, sqr_length := 0,
        components := fun j : Fin 12 =>
          if (j.val : Int) < v.size then v.components j * scalar else 0 } := by
  unfold mul
  simp only [ofSize_eq]
  rw [forLoop_update v.size (fun i _ => v.components i * scalar)]

theorem div_eq (v : Vector C) (scalar : C) :
    v.div scalar = updatelen
      { x := 0, y := 0, z := 0, size := v.size, length := 0, sqr_length := 0,
        components := fun j : Fin 12 =>
          if (j.val : Int) < v.size then v.components j / scalar else 0 } := by
  unfold div
  simp only [ofSize_eq]
  rw [forLoop_update v.size (fun i _ => v.components i / scalar)]

theorem Zero_eq (dimension : Int) :
    (Zero dimension : Vector C) =
      { x := 0, y := 0, z := 0, size := dimension, components := fun _ => 0,
        length := 0, sqr_length := 0 } := by
  unfold Zero
  simp only [ofSize_eq]
  rw [forLoop_update dimension (fun _ _ => (0 : C))]
  simp [updatelen_eq, sumSq, CMath.sqrt_zero]

theorem assign_eq (v B : Vector C) :
    v.assign B =
      { x := if 0 < B.size then B.components 0 else v.x
        y := if 1 < B.size then B.components 1 else v.y
        z := if 2 < B.size then B.components 2 else v.z
        size := B.size
        components := fun j : Fin 12 =>
          if (j.val : Int) < B.size then B.components j else v.components j
        length := B.length
        sqr_length := B.sqr_length } := by
  unfold assign
  simp only [loadXYZ_eq]
  rw [forLoop_update B.size (fun i _ => B.components i)]
  by_cases h0 : 0 < B.size <;> by_cases h1 : 1 < B.size <;> by_cases h2 : 2 < B.size <;>
    simp [h0, h1, h2]

@[simp]
theorem updatelen_x (v : Vector C) : v.updatelen.x = v.x := by simp [updatelen_eq]
@[simp]
theorem updatelen_y (v : Vector C) : v.updatelen.y = v.y := by simp [updatelen_eq]
@[simp]
theorem updatelen_z (v : Vector C) : v.updatelen.z = v.z := by simp [updatelen_eq]
@[simp]
theorem updatelen_size (v : Vector C) : v.updatelen.size = v.size := by
  simp [updatelen_eq]
@[simp]
theorem updatelen_components (v : Vector C) :
    v.updatelen.components = v.components := by simp [updatelen_eq]
theorem updatelen_sqr_length (v : Vector C) : v.updatelen.sqr_length = v.sumSq := by
  simp [updatelen_eq]
theorem updatelen_length (v : Vector C) : v.updatelen.length = CMath.sqrt v.sumSq := by
  simp [updatelen_eq]

theorem normalizedVec_eq (v : Vector C) :
    v.normalizedVec =
      { x := 0, y := 0, z := 0, size := v.size, length := 0, sqr_length := 0,
        components := fun j : Fin 12 =>
          if (j.val : Int) < v.size then v.components j / CMath.sqrt v.sqr_length else 0 } := by
  unfold normalizedVec
  simp only [ofSize_eq]
  rw [forLoop_update v.size (fun i _ => v.components i / CMath.sqrt v.sqr_length)]

theorem scalarMult_eq (v : Vector C) (n : C) :
    v.scalarMult n = updatelen
      { v with components := fun j : Fin 12 =>
          if (j.val : Int) < v.size then v.components j * n else v.components j } := by
  unfold scalarMult
  rw [forLoop_update v.size (fun _ c => c * n)]

end Vector

/-! ## Body and World: supporting lemmas -/

theorem ofSize_two_set_eq (a b : C) :
    (Vector.ofSize 2).set a b =
      { x := a, y := b, z := 0, size := 2
        components := Function.update (Function.update (fun _ => 0) 0 a) 1 b
        length := CMath.sqrt (a * a + b * b), sqr_length := a * a + b * b } := by
  have hs : (∑ i : Fin 12, if i.val < 2 then
      Function.update (Function.update (fun _ => (0 : C)) 0 a) 1 b i *
        Function.update (Function.update (fun _ => (0 : C)) 0 a) 1 b i else 0)
      = a * a + b * b := by
    simp [Fin.sum_univ_succ]
  simp [Vector.set, Vector.ofSize_eq, Vector.syncComponents, Vector.updatelen_eq,
    Vector.sumSq, hs]

theorem World.updateLoop_eq (deltaTime : C) (visited l : List (Body C)) :
    World.updateLoop deltaTime visited l = visited ++ l.map (World.updateBody deltaTime) := by
  induction l generalizing visited with
  | nil => simp [World.updateLoop]
  | cons b rest ih => simp [World.updateLoop, ih]

theorem World.Update_bodies (w : World C) (deltaTime : C) :
    (w.Update deltaTime).bodies = w.bodies.map (World.updateBody deltaTime) := by
  simp [World.Update, World.updateLoop_eq]

theorem reorder_map {α β : Type} (f : α → β) (p : List Nat) (l : List α) :
    reorder p (l.map f) = (reorder p l).map f := by
  induction p with
  | nil => rfl
  | cons i p ih =>
    simp only [reorder, List.getElem?_map] at ih ⊢
    cases h : l[i]? <;> simp [List.filterMap_cons, h, ih]

namespace Vector

theorem mul_size (v : Vector C) (k : C) : (v.mul k).size = v.size := by simp [mul_eq]

theorem div_size (v : Vector C) (k : C) : (v.div k).size = v.size := by simp [div_eq]

theorem add_size (v B : Vector C) : (v.add B).size = v.size := by simp [add_eq]

theorem assign_size (v B : Vector C) : (v.assign B).size = B.size := by simp [assign_eq]

theorem IsZero.mul {v : Vector C} (h : v.IsZero) (k : C) : (v.mul k).IsZero := by
  intro j hj
  rw [mul_size] at hj
  simp [mul_eq, hj, h j hj]

theorem IsZero.div {v : Vector C} (h : v.IsZero) (k : C) : (v.div k).IsZero := by
  intro j hj
  rw [div_size] at hj
  simp [div_eq, hj, h j hj]

theorem IsZero.add {v B : Vector C} (hv : v.IsZero) (hB : B.IsZero) : (v.add B).IsZero := by
  intro j hj
  rw [add_size] at hj
  by_cases hjB : (j.val : Int) < B.size
  · simp [add_eq, hj, hjB, hv j hj, hB j hjB]
  · simp [add_eq, hjB]

theorem IsZero.assign (v : Vector C) {B : Vector C} (hB : B.IsZero) : (v.assign B).IsZero := by
  intro j hj
  rw [assign_size] at hj
  simp [assign_eq, hj, hB j hj]

/-- `v = v + B` for a zero vector `B` at least as long as `v` leaves the components of `v`
as they were. -/
theorem assign_add_zero_components (v : Vector C) {B : Vector C} (hB : B.IsZero)
    (hle : v.size ≤ B.size) : (v.assign (v.add B)).components = v.components := by
  funext j
  by_cases hj : (j.val : Int) < v.size
  · have hjB : (j.val : Int) < B.size := lt_of_lt_of_le hj hle
    simp [assign_eq, add_eq, hj, hjB, hB j hjB]
  · simp [assign_eq, add_eq, hj]

/-- Components of `v = v + B` for two-dimensional `v` and `B`. -/
theorem assign_add_components_two (v B : Vector C) (hv : v.size = 2) (hB : B.size = 2) :
    (v.assign (v.add B)).components
      = fun j : Fin 12 => if j.val < 2 then v.components j + B.components j
          else v.components j := by
  funext j
  by_cases hj : j.val < 2 <;> simp [assign_eq, add_eq, hv, hB, hj]

/-- After `v = B` the `x` field reads the new `components[0]` when `B` has a dimension. -/
theorem assign_x (v B : Vector C) (h : 0 < B.size) :
    (v.assign B).x = (v.assign B).components 0 := by
  simp [assign_eq, h]

/-- After `v = B` the `y` field reads the new `components[1]` when `B` has two dimensions. -/
theorem assign_y (v B : Vector C) (h : 1 < B.size) :
    (v.assign B).y = (v.assign B).components 1 := by
  simp [assign_eq, h]

end Vector

namespace Body

/-- The local variable `drag_force` of `Body::Update` after its two statements. -/
theorem dragForce_isZero (b : Body C) (hd : b.liniar_drag.IsZero) :
    ((b.liniar_drag.mul (-1)).assign ((b.liniar_drag.mul (-1)).mul b.velocity.x)).IsZero :=
  Vector.IsZero.assign _ ((hd.mul (-1)).mul _)

theorem Update_acceleration (b : Body C) (dt : C) :
    (b.Update dt).acceleration
      = b.acceleration.assign (((b.force.add
          ((b.liniar_drag.mul (-1)).assign ((b.liniar_drag.mul (-1)).mul b.velocity.x))).div
            b.mass).add b.gravity) := rfl

theorem Update_velocity (b : Body C) (dt : C) :
    (b.Update dt).velocity
      = b.velocity.assign (b.velocity.add ((b.Update dt).acceleration.mul dt)) := rfl

theorem Update_position (b : Body C) (dt : C) :
    (b.Update dt).position
      = b.position.assign (b.position.add ((b.Update dt).velocity.mul dt)) := rfl

theorem Update_acceleration_size (b : Body C) (dt : C) :
    (b.Update dt).acceleration.size = b.force.size := by
  rw [Update_acceleration, Vector.assign_size, Vector.add_size, Vector.div_size, Vector.add_size]

theorem Update_velocity_size (b : Body C) (dt : C) :
    (b.Update dt).velocity.size = b.velocity.size := by
  rw [Update_velocity, Vector.assign_size, Vector.add_size]

theorem Update_position_size (b : Body C) (dt : C) :
    (b.Update dt).position.size = b.position.size := by
  rw [Update_position, Vector.assign_size, Vector.add_size]

end Body

/-! ## What the constructors, `set`, `operator=` and `updatelen` do establish

The part of the mirror invariant and of the cached-length invariant that the code keeps. -/

namespace Vector

theorem sumSq_updatelen (v : Vector C) : v.updatelen.sumSq = v.sumSq := by
  simp [sumSq]

/-- Every vector that has just been through `updatelen()` satisfies the cached-length
invariant. -/
theorem lenOK_updatelen (v : Vector C) : v.updatelen.LenOK := by
  refine ⟨?_, ?_⟩
  · rw [updatelen_sqr_length, sumSq_updatelen]
  · rw [updatelen_length, updatelen_sqr_length]

theorem lenOK_syncComponents (v : Vector C) : v.syncComponents.LenOK :=
  lenOK_updatelen _

/-- The operations that end in `updatelen()` (directly or through `syncComponents()`)
establish the cached-length invariant; `set` keeps it when it is a no-op; `operator=` copies
it from its argument. -/
theorem lenOK_established (v B : Vector C) (s : Int) (a b c n : C) (arr : Fin 12 → C) :
    (ofSize s : Vector C).LenOK ∧ (Zero s : Vector C).LenOK ∧
    (v.LenOK → (v.set a b).LenOK) ∧ (v.LenOK → (v.set3 a b c).LenOK) ∧
    (v.setArray arr).LenOK ∧ (B.LenOK → (v.assign B).LenOK) ∧
    (v.add B).LenOK ∧ (v.sub B).LenOK ∧ (v.mul n).LenOK ∧ (v.div n).LenOK ∧
    (v.scalarMult n).LenOK ∧ v.normalize.LenOK := by
  refine ⟨lenOK_syncComponents _, lenOK_updatelen _, ?_, ?_, lenOK_updatelen _, ?_,
    lenOK_updatelen _, lenOK_updatelen _, lenOK_updatelen _, lenOK_updatelen _,
    lenOK_updatelen _, lenOK_updatelen _⟩
  · intro hv
    unfold set
    split_ifs
    · exact hv
    · exact lenOK_syncComponents _
  · intro hv
    unfold set3
    split_ifs
    · exact hv
    · exact lenOK_syncComponents _
  · intro hB
    have hs : (v.assign B).sumSq = B.sumSq := by
      simp only [sumSq, assign_eq]
      refine Finset.sum_congr rfl (fun j _ => ?_)
      by_cases hj : (j.val : Int) < B.size <;> simp [hj]
    refine ⟨?_, ?_⟩
    · rw [hs, ← hB.1]
      simp [assign_eq]
    · have h2 := hB.2
      simp only [assign_eq]
      exact h2

theorem mirror_syncComponents (v : Vector C) : v.syncComponents.Mirror := by
  unfold syncComponents
  refine ⟨?_, ?_, ?_⟩ <;> intro h <;> simp only [updatelen_size] at h <;>
    simp only [updatelen_x, updatelen_y, updatelen_z, updatelen_components]
  · have h0 : v.size > 0 := h
    by_cases h1 : v.size > 1 <;> by_cases h2 : v.size > 2 <;> simp [h0, h1, h2]
  · have h1 : v.size > 1 := h
    by_cases h2 : v.size > 2 <;> simp [h1, h2]
  · have h2 : v.size > 2 := h
    simp [h2]

/-- The constructor, `Zero`, `set` in its three forms and `operator=` establish (or, for a
`set` that is a no-op, keep) the mirror invariant. -/
theorem mirror_established (v B : Vector C) (s : Int) (a b c : C) (arr : Fin 12 → C) :
    (ofSize s : Vector C).Mirror ∧ (Zero s : Vector C).Mirror ∧
    (v.Mirror → (v.set a b).Mirror) ∧ (v.Mirror → (v.set3 a b c).Mirror) ∧
    (v.setArray arr).Mirror ∧ (v.assign B).Mirror := by
  refine ⟨mirror_syncComponents _, ?_, ?_, ?_, ?_, ?_⟩
  · simp [Zero_eq, Mirror]
  · intro hv
    unfold set
    split_ifs
    · exact hv
    · exact mirror_syncComponents _
  · intro hv
    unfold set3
    split_ifs
    · exact hv
    · exact mirror_syncComponents _
  · unfold setArray
    simp only [Mirror, updatelen_size, updatelen_x, updatelen_y, updatelen_z,
      updatelen_components, loadXYZ_eq]
    refine ⟨?_, ?_, ?_⟩ <;> intro h <;> simp [h]
  · simp only [Mirror, assign_eq]
    refine ⟨?_, ?_, ?_⟩ <;> intro h <;> simp [h]

end Vector

/-! ## The claims -/

/-- C1 (code defect). End-to-end scenario on the code: after `AddBody(100, 200, 0, 0, 5, 0, shp)`
on an empty world and one `Update(1)`, with gravity and drag as the constructor left them, the
world holds one body whose linear drag has dimension 0, so that `force + drag_force` keeps no
component of the force: acceleration and velocity are `(0, 0)` (not `(50, 0)`), the position is
still `(100, 200)` (not `(150, 200)`), and the force has been reset to `(0, 0)`. -/
theorem C1_scenario_force_is_dropped (shp : Shape C) :
    ∃ b : Body C,
      ((World.AddBody ({ bodies := [] } : World C) 100 200 0 0 5 0 shp).Update 1).bodies = [b] ∧
      b.liniar_drag.size = 0 ∧
      (b.acceleration.size = 2 ∧ b.acceleration.components 0 = 0 ∧
        b.acceleration.components 1 = 0 ∧ b.acceleration.x = 0 ∧ b.acceleration.y = 0) ∧
      b.acceleration.components 0 ≠ 50 ∧
      (b.velocity.size = 2 ∧ b.velocity.components 0 = 0 ∧ b.velocity.components 1 = 0 ∧
        b.velocity.x = 0 ∧ b.velocity.y = 0) ∧
      b.velocity.components 0 ≠ 50 ∧
      (b.position.size = 2 ∧ b.position.components 0 = 100 ∧ b.position.components 1 = 200 ∧
        b.position.x = 100 ∧ b.position.y = 200) ∧
      b.position.components 0 ≠ 150 ∧
      (b.force.size = 2 ∧ b.force.components 0 = 0 ∧ b.force.components 1 = 0 ∧
        b.force.x = 0 ∧ b.force.y = 0) := by
  refine ⟨_, rfl, ?_⟩
  simp only [ofSize_two_set_eq]
  simp [World.updateBody, Body.Update, Body.new, Vector.new_eq,
    Vector.ofSize_eq, Vector.Zero_eq, Vector.add_eq, Vector.mul_eq, Vector.div_eq,
    Vector.assign_eq]

/-- C2. Constant force, zero initial velocity, two-dimensional zero gravity and linear drag set
to the two-dimensional zero vector, mass `m > 0`: after one `Body::Update(dt)` the velocity is
`(F / m) * dt` and the position is the initial position plus `velocity * dt` (hence
`velocity * dt` for a body starting at the origin), in `components` and in the `x`, `y`
fields. -/
theorem C2_constant_force_step (b : Body C) (dt : C) (_hm : 0 < b.mass)
    (hf : b.force.size = 2) (hp : b.position.size = 2)
    (hv : b.velocity.size = 2) (hv0 : b.velocity.IsZero)
    (hg : b.gravity.size = 2) (hg0 : b.gravity.IsZero)
    (hd : b.liniar_drag.size = 2) (hd0 : b.liniar_drag.IsZero) :
    ((b.Update dt).velocity.size = 2 ∧
      (b.Update dt).velocity.components 0 = b.force.components 0 / b.mass * dt ∧
      (b.Update dt).velocity.components 1 = b.force.components 1 / b.mass * dt ∧
      (b.Update dt).velocity.x = b.force.components 0 / b.mass * dt ∧
      (b.Update dt).velocity.y = b.force.components 1 / b.mass * dt) ∧
    ((b.Update dt).position.size = 2 ∧
      (b.Update dt).position.components 0
        = b.position.components 0 + (b.Update dt).velocity.components 0 * dt ∧
      (b.Update dt).position.components 1
        = b.position.components 1 + (b.Update dt).velocity.components 1 * dt ∧
      (b.Update dt).position.x = b.position.components 0 + (b.Update dt).velocity.x * dt ∧
      (b.Update dt).position.y = b.position.components 1 + (b.Update dt).velocity.y * dt) ∧
    (b.position.components 0 = 0 → b.position.components 1 = 0 →
      (b.Update dt).position.components 0 = (b.Update dt).velocity.components 0 * dt ∧
      (b.Update dt).position.components 1 = (b.Update dt).velocity.components 1 * dt ∧
      (b.Update dt).position.x = (b.Update dt).velocity.x * dt ∧
      (b.Update dt).position.y = (b.Update dt).velocity.y * dt) := by
  have hv0a := hv0 0 (by simp [hv])
  have hv0b := hv0 1 (by simp [hv])
  have hg0a := hg0 0 (by simp [hg])
  have hg0b := hg0 1 (by simp [hg])
  have hd0a := hd0 0 (by simp [hd])
  have hd0b := hd0 1 (by simp [hd])
  simp only [Body.Update, Vector.add_eq, Vector.mul_eq, Vector.div_eq, Vector.assign_eq,
    Vector.updatelen_size, Vector.updatelen_components, Vector.updatelen_x, hf, hp, hv, hg, hd]
  refine ⟨?_, ?_, ?_⟩
  · simp [hv0a, hv0b, hg0a, hg0b, hd0a, hd0b]
  · simp [hv0a, hv0b, hg0a, hg0b, hd0a, hd0b]
  · intro h0 h1
    simp [hv0a, hv0b, hg0a, hg0b, hd0a, hd0b, h0, h1]

/-- C2 (witness): the statement at the sample body with force `(5, 0)`, mass `0.1`, linear
drag set to `Zero(2)`, and `dt = 2`. -/
theorem C2_constant_force_step_witness :
    (sampleBodyDrag2.Update 2).velocity.components 0
      = sampleBodyDrag2.force.components 0 / sampleBodyDrag2.mass * 2 ∧
    (sampleBodyDrag2.Update 2).position.components 0
      = sampleBodyDrag2.position.components 0
        + (sampleBodyDrag2.Update 2).velocity.components 0 * 2 := by
  have hw := C2_constant_force_step sampleBodyDrag2 2
    (by norm_num [sampleBodyDrag2, sampleBody, Body.new])
    (by simp [sampleBodyDrag2, sampleBody, Body.new, vec2, ofSize_two_set_eq])
    (by simp [sampleBodyDrag2, sampleBody, Body.new, vec2, ofSize_two_set_eq])
    (by simp [sampleBodyDrag2, sampleBody, Body.new, vec2, ofSize_two_set_eq])
    (by simp [sampleBodyDrag2, sampleBody, Body.new, vec2, ofSize_two_set_eq, Vector.IsZero,
      Fin.forall_fin_succ])
    (by simp [sampleBodyDrag2, sampleBody, Body.new, Vector.ofSize_eq])
    (by simp [sampleBodyDrag2, sampleBody, Body.new, Vector.ofSize_eq, Vector.IsZero])
    (by simp [sampleBodyDrag2, Vector.Zero_eq])
    (by simp [sampleBodyDrag2, Vector.Zero_eq, Vector.IsZero])
  exact ⟨hw.1.2.1, hw.2.1.2.1⟩

/-- C3 (as amended). Zero force (a zero vector of dimension at least 2), zero linear drag and
zero gravity (of any dimension), two-dimensional position and velocity, mass `> 0`:
`Body::Update(dt)` leaves the size and every component of the velocity unchanged, and moves
the position by `velocity * dt` (so the position is unchanged exactly when `velocity * dt` is
zero); the `x`, `y` fields read the new components. -/
theorem C3_no_force_uniform_motion (b : Body C) (dt : C) (_hm : 0 < b.mass)
    (hp : b.position.size = 2) (hv : b.velocity.size = 2)
    (hf2 : 2 ≤ b.force.size) (hf : b.force.IsZero)
    (hd : b.liniar_drag.IsZero) (hg : b.gravity.IsZero) :
    ((b.Update dt).velocity.size = b.velocity.size ∧
      (b.Update dt).velocity.components = b.velocity.components ∧
      (b.Update dt).velocity.x = b.velocity.components 0 ∧
      (b.Update dt).velocity.y = b.velocity.components 1) ∧
    ((b.Update dt).position.size = b.position.size ∧
      (b.Update dt).position.components 0
        = b.position.components 0 + b.velocity.components 0 * dt ∧
      (b.Update dt).position.components 1
        = b.position.components 1 + b.velocity.components 1 * dt ∧
      (∀ j : Fin 12, 2 ≤ j.val →
        (b.Update dt).position.components j = b.position.components j) ∧
      (b.Update dt).position.x = (b.Update dt).position.components 0 ∧
      (b.Update dt).position.y = (b.Update dt).position.components 1) ∧
    (b.velocity.components 0 * dt = 0 → b.velocity.components 1 * dt = 0 →
      (b.Update dt).position.components = b.position.components) := by
  have hacc : (b.Update dt).acceleration.IsZero := by
    rw [Body.Update_acceleration]
    exact Vector.IsZero.assign _ (((hf.add (Body.dragForce_isZero b hd)).div _).add hg)
  have hvc : (b.Update dt).velocity.components = b.velocity.components := by
    rw [Body.Update_velocity]
    apply Vector.assign_add_zero_components _ (hacc.mul dt)
    rw [Vector.mul_size, Body.Update_acceleration_size, hv]
    exact hf2
  have hvs : (b.Update dt).velocity.size = 2 := by rw [Body.Update_velocity_size, hv]
  have hpc := Vector.assign_add_components_two b.position ((b.Update dt).velocity.mul dt) hp
    (by rw [Vector.mul_size, hvs])
  rw [← Body.Update_position] at hpc
  have hmul : ∀ j : Fin 12, j.val < 2 →
      ((b.Update dt).velocity.mul dt).components j = b.velocity.components j * dt := by
    intro j hj
    simp [Vector.mul_eq, hvs, hj, hvc]
  refine ⟨⟨Body.Update_velocity_size b dt, hvc, ?_, ?_⟩,
    ⟨Body.Update_position_size b dt, ?_, ?_, ?_, ?_, ?_⟩, ?_⟩
  · rw [← hvc, Body.Update_velocity]
    exact Vector.assign_x _ _ (by rw [Vector.add_size, hv]; norm_num)
  · rw [← hvc, Body.Update_velocity]
    exact Vector.assign_y _ _ (by rw [Vector.add_size, hv]; norm_num)
  · rw [hpc]; simp [hmul]
  · rw [hpc]; simp [hmul]
  · intro j hj
    rw [hpc]
    simp [Nat.not_lt.2 hj]
  · rw [Body.Update_position]
    exact Vector.assign_x _ _ (by rw [Vector.add_size, hp]; norm_num)
  · rw [Body.Update_position]
    exact Vector.assign_y _ _ (by rw [Vector.add_size, hp]; norm_num)
  · intro h0 h1
    rw [hpc]
    funext j
    by_cases hj : j.val < 2
    · have hj01 : j = 0 ∨ j = 1 := by
        rcases j with ⟨n, hn⟩
        simp only [Fin.ext_iff]
        simp only at hj
        interval_cases n <;> simp
      rcases hj01 with rfl | rfl <;> simp [hmul, h0, h1]
    · simp [hj]

/-- C3 (witness): the amended statement at the coasting sample body and `dt = 1`. -/
theorem C3_no_force_uniform_motion_witness :
    (sampleBodyCoasting.Update 1).velocity.components = sampleBodyCoasting.velocity.components ∧
    (sampleBodyCoasting.Update 1).position.components 0
      = sampleBodyCoasting.position.components 0
        + sampleBodyCoasting.velocity.components 0 * 1 := by
  have hw := C3_no_force_uniform_motion sampleBodyCoasting 1
    (by norm_num [sampleBodyCoasting, sampleBody, Body.new])
    (by simp [sampleBodyCoasting, sampleBody, Body.new, vec2, ofSize_two_set_eq])
    (by simp [sampleBodyCoasting, sampleBody, Body.new, vec2, ofSize_two_set_eq])
    (by simp [sampleBodyCoasting, Vector.Zero_eq])
    (by simp [sampleBodyCoasting, Vector.Zero_eq, Vector.IsZero])
    (by simp [sampleBodyCoasting, Vector.Zero_eq, Vector.IsZero])
    (by simp [sampleBodyCoasting, sampleBody, Body.new, Vector.ofSize_eq, Vector.IsZero])
  exact ⟨hw.1.2.1, hw.2.1.2.1⟩

/-- C3 (counterexample). The sample body with zero force, zero drag, zero gravity and velocity
`(3, 4)` satisfies every hypothesis of the claim, and `Update(1)` moves its position from
`(100, 200)` to `(103, 204)`. -/
theorem C3_counterexample :
    (0 < sampleBodyCoasting.mass ∧ sampleBodyCoasting.position.size = 2 ∧
      sampleBodyCoasting.velocity.size = 2 ∧
      sampleBodyCoasting.force.size = 2 ∧ sampleBodyCoasting.force.IsZero ∧
      sampleBodyCoasting.liniar_drag.size = 2 ∧ sampleBodyCoasting.liniar_drag.IsZero ∧
      sampleBodyCoasting.gravity.size = 2 ∧ sampleBodyCoasting.gravity.IsZero) ∧
    (sampleBodyCoasting.position.components 0 = 100 ∧
      sampleBodyCoasting.position.components 1 = 200) ∧
    ((sampleBodyCoasting.Update 1).position.components 0 = 103 ∧
      (sampleBodyCoasting.Update 1).position.components 1 = 204) ∧
    ¬ ((sampleBodyCoasting.Update 1).position.components
        = sampleBodyCoasting.position.components) := by
  have h : (sampleBodyCoasting.position.components 0 = 100 ∧
      sampleBodyCoasting.position.components 1 = 200) ∧
      ((sampleBodyCoasting.Update 1).position.components 0 = 103 ∧
      (sampleBodyCoasting.Update 1).position.components 1 = 204) := by
    simp only [sampleBodyCoasting, sampleBody, vec2, ofSize_two_set_eq]
    simp [Body.Update, Body.new, Vector.new_eq, Vector.ofSize_eq, Vector.Zero_eq,
      Vector.add_eq, Vector.mul_eq, Vector.div_eq, Vector.assign_eq]
    norm_num
  refine ⟨?_, h.1, h.2, ?_⟩
  · simp only [sampleBodyCoasting, sampleBody, vec2, ofSize_two_set_eq]
    simp [Body.new, Vector.IsZero, Vector.Zero_eq, Vector.ofSize_eq]
    norm_num
  · intro hc
    have h0 := congrFun hc 0
    rw [h.1.1, h.2.1] at h0
    norm_num at h0

theorem World.updateLoopChecked_of_inBounds (dt : C) (visited l : List (Body C))
    (h : ∀ b ∈ l, b.UpdateInBounds) :
    World.updateLoopChecked dt visited l = some (World.updateLoop dt visited l) := by
  induction l generalizing visited with
  | nil => rfl
  | cons b rest ih =>
    have hb : b.UpdateInBounds := h b (List.mem_cons_self b rest)
    simp only [World.updateLoopChecked, World.updateLoop, if_pos hb]
    exact ih _ (fun c hc => h c (List.mem_cons_of_mem b hc))

theorem World.updateLoopChecked_of_overrun (dt : C) (visited l : List (Body C))
    (h : ∃ b ∈ l, ¬ b.UpdateInBounds) : World.updateLoopChecked dt visited l = none := by
  induction l generalizing visited with
  | nil =>
    obtain ⟨b, hb, _⟩ := h
    cases hb
  | cons b rest ih =>
    by_cases hb : b.UpdateInBounds
    · simp only [World.updateLoopChecked, if_pos hb]
      apply ih
      obtain ⟨c, hc, hcn⟩ := h
      rcases List.mem_cons.1 hc with rfl | hc2
      · exact absurd hb hcn
      · exact ⟨c, hc2, hcn⟩
    · simp only [World.updateLoopChecked, if_neg hb]

/-- The statement `angular_acc = (torque + drag_torque.x) / inertia` stores `Vector(int)` of
`angularQuotient`. -/
theorem Body.Update_angular_acc_quotient (b : Body C) (dt : C) :
    (b.Update dt).angular_acc = b.angular_acc.assign (Vector.ofSize b.angularQuotient) := rfl

/-- C5. `World::Update(dt)` is a pointwise map over the body list: it keeps the number and
order of the bodies, body `i` afterwards is `Body::Update(dt)` applied once to body `i`
followed by `force = Zero(2)` and `torque = 0`, and therefore `Update` commutes with every
reordering of the list (by an index sequence, in particular by a permutation of the indices)
and maps permuted lists to permuted lists. -/
theorem C5_update_is_pointwise_map (w : World C) (dt : C) :
    (w.Update dt).bodies.length = w.bodies.length ∧
    (∀ i : Nat, (w.Update dt).bodies[i]? = (w.bodies[i]?).map (fun b : Body C =>
      { b.Update dt with force := (b.Update dt).force.assign (Vector.Zero 2), torque := 0 })) ∧
    (∀ p : List Nat, (World.Update { bodies := reorder p w.bodies } dt).bodies
      = reorder p (w.Update dt).bodies) ∧
    (∀ l : List (Body C), l.Perm w.bodies →
      (World.Update { bodies := l } dt).bodies.Perm (w.Update dt).bodies) := by
  refine ⟨?_, ?_, ?_, ?_⟩
  · simp [World.Update_bodies]
  · intro i
    rw [World.Update_bodies, List.getElem?_map]
    rfl
  · intro p
    simp only [World.Update_bodies, reorder_map]
  · intro l hl
    simp only [World.Update_bodies]
    exact hl.map _

/-- C5 (witness): updating the two-body sample world in swapped order gives a permutation of
updating it in the original order. -/
theorem C5_update_is_pointwise_map_witness :
    (World.Update { bodies := [sampleBodyCoasting, sampleBody] } 1).bodies.Perm
      (sampleWorld.Update 1).bodies :=
  (C5_update_is_pointwise_map sampleWorld 1).2.2.2 [sampleBodyCoasting, sampleBody]
    (List.Perm.swap _ _ _)

/-- C6. `RemoveBody(i)` with `i` at or beyond the number of bodies returns the world unchanged:
the same bodies, in the same order, with the same state. -/
theorem C6_remove_out_of_range_is_noop (w : World C) (i : Nat) (h : w.bodies.length ≤ i) :
    w.RemoveBody i = w ∧ (w.RemoveBody i).bodies = w.bodies ∧
      (w.RemoveBody i).bodies.length = w.bodies.length := by
  have hw : w.RemoveBody i = w := by simp [World.RemoveBody, Nat.not_lt.2 h]
  simp [hw]

/-- C6 (witness): index 2 in the two-body sample world. -/
theorem C6_remove_out_of_range_is_noop_witness :
    sampleWorld.RemoveBody 2 = sampleWorld ∧
      (sampleWorld.RemoveBody 2).bodies = sampleWorld.bodies ∧
      (sampleWorld.RemoveBody 2).bodies.length = sampleWorld.bodies.length :=
  C6_remove_out_of_range_is_noop sampleWorld 2 (by simp [sampleWorld])

/-- C7. `RemoveBody(i)` with `i` below the number `n` of bodies leaves `n - 1` bodies: the
original list without its element `i`; positions below `i` keep their body, position `j ≥ i`
receives the body that was at `j + 1`, and no body is modified. -/
theorem C7_remove_in_range (w : World C) (i : Nat) (h : i < w.bodies.length) :
    (w.RemoveBody i).bodies.length = w.bodies.length - 1 ∧
    (w.RemoveBody i).bodies = w.bodies.take i ++ w.bodies.drop (i + 1) ∧
    (∀ j : Nat, j < i → (w.RemoveBody i).bodies[j]? = w.bodies[j]?) ∧
    (∀ j : Nat, i ≤ j → (w.RemoveBody i).bodies[j]? = w.bodies[j + 1]?) := by
  have hw : (w.RemoveBody i).bodies = w.bodies.eraseIdx i := by simp [World.RemoveBody, h]
  rw [hw]
  refine ⟨List.length_eraseIdx_of_lt h, List.eraseIdx_eq_take_drop_succ _ _, ?_, ?_⟩
  · intro j hj
    exact List.getElem?_eraseIdx_of_lt _ _ _ hj
  · intro j hj
    exact List.getElem?_eraseIdx_of_ge _ _ _ hj

/-- C7 (witness): index 0 in the two-body sample world. -/
theorem C7_remove_in_range_witness :
    (sampleWorld.RemoveBody 0).bodies.length = sampleWorld.bodies.length - 1 ∧
    (sampleWorld.RemoveBody 0).bodies
      = sampleWorld.bodies.take 0 ++ sampleWorld.bodies.drop (0 + 1) ∧
    (∀ j : Nat, j < 0 → (sampleWorld.RemoveBody 0).bodies[j]? = sampleWorld.bodies[j]?) ∧
    (∀ j : Nat, 0 ≤ j → (sampleWorld.RemoveBody 0).bodies[j]? = sampleWorld.bodies[j + 1]?) :=
  C7_remove_in_range sampleWorld 0 (by simp [sampleWorld])

/-- C8. `AddBody(x, y, vx, vy, fx, fy, shp)` appends one body and changes nothing else: the
new list is the old list followed by a body with position `(x, y)`, velocity `(vx, vy)`, force
`(fx, fy)` (size 2, in `components` and in `x`, `y`), mass `0.1`, torque `0`, the single shape
`shp`, and zero acceleration (dimension 0), angular acceleration, angular velocity and rotation
(dimension 2). -/
theorem C8_addBody_appends_fresh_body (w : World C) (x y vx vy fx fy : C) (shp : Shape C) :
    ∃ nb : Body C,
      (w.AddBody x y vx vy fx fy shp).bodies = w.bodies ++ [nb] ∧
      (w.AddBody x y vx vy fx fy shp).bodies.length = w.bodies.length + 1 ∧
      (w.AddBody x y vx vy fx fy shp).bodies.take w.bodies.length = w.bodies ∧
      (w.AddBody x y vx vy fx fy shp).bodies[w.bodies.length]? = some nb ∧
      (nb.position.size = 2 ∧ nb.position.components 0 = x ∧ nb.position.components 1 = y ∧
        nb.position.x = x ∧ nb.position.y = y) ∧
      (nb.velocity.size = 2 ∧ nb.velocity.components 0 = vx ∧ nb.velocity.components 1 = vy ∧
        nb.velocity.x = vx ∧ nb.velocity.y = vy) ∧
      (nb.force.size = 2 ∧ nb.force.components 0 = fx ∧ nb.force.components 1 = fy ∧
        nb.force.x = fx ∧ nb.force.y = fy) ∧
      nb.mass = 0.1 ∧ nb.torque = 0 ∧ nb.shapes = [shp] ∧
      (nb.acceleration.size = 0 ∧ nb.acceleration.IsZero ∧
        ∀ j, nb.acceleration.components j = 0) ∧
      (nb.angular_acc.size = 2 ∧ nb.angular_acc.IsZero ∧
        ∀ j, nb.angular_acc.components j = 0) ∧
      (nb.angular_vel.size = 2 ∧ nb.angular_vel.IsZero ∧
        ∀ j, nb.angular_vel.components j = 0) ∧
      (nb.rotation.size = 2 ∧ nb.rotation.IsZero ∧ ∀ j, nb.rotation.components j = 0) := by
  refine ⟨_, rfl, ?_, ?_, ?_, ?_⟩
  · simp [World.AddBody]
  · simp [World.AddBody]
  · simp [World.AddBody]
  · simp only [ofSize_two_set_eq]
    simp [Body.new, Vector.ofSize_eq, Vector.IsZero]

/-- C9 (code defect). The operands `(1, 2)` and `(3, 4)` built by `Vector(2)` and `set`
satisfy the mirror invariant, but the vectors returned by `operator+`, `operator-`,
`operator*`, `operator/` and `crossProduct`, and the vector left by `scalarMult`, do not: the
operators fill `components` and leave `x`, `y` at the constructor's 0, `scalarMult` scales
`components` and leaves `x`, `y` as they were. -/
theorem C9_operators_break_mirror :
    ((vec2 (1 : ℚ) 2).Mirror ∧ (vec2 (3 : ℚ) 4).Mirror) ∧
    (((vec2 (1 : ℚ) 2).add (vec2 3 4)).size = 2 ∧
      ((vec2 (1 : ℚ) 2).add (vec2 3 4)).components 0 = 4 ∧
      ((vec2 (1 : ℚ) 2).add (vec2 3 4)).x = 0 ∧
      ¬ ((vec2 (1 : ℚ) 2).add (vec2 3 4)).Mirror) ∧
    (((vec2 (1 : ℚ) 2).sub (vec2 3 4)).components 0 = -2 ∧
      ((vec2 (1 : ℚ) 2).sub (vec2 3 4)).x = 0 ∧
      ¬ ((vec2 (1 : ℚ) 2).sub (vec2 3 4)).Mirror) ∧
    (((vec2 (1 : ℚ) 2).mul 3).components 0 = 3 ∧ ((vec2 (1 : ℚ) 2).mul 3).x = 0 ∧
      ¬ ((vec2 (1 : ℚ) 2).mul 3).Mirror) ∧
    (((vec2 (3 : ℚ) 4).div 2).components 1 = 2 ∧ ((vec2 (3 : ℚ) 4).div 2).y = 0 ∧
      ¬ ((vec2 (3 : ℚ) 4).div 2).Mirror) ∧
    (((vec2 (1 : ℚ) 2).scalarMult 3).components 0 = 3 ∧
      ((vec2 (1 : ℚ) 2).scalarMult 3).x = 1 ∧
      ¬ ((vec2 (1 : ℚ) 2).scalarMult 3).Mirror) ∧
    (((vec2 (1 : ℚ) 2).crossProduct (vec2 3 4)).size = 1 ∧
      ((vec2 (1 : ℚ) 2).crossProduct (vec2 3 4)).components 0 = -2 ∧
      ((vec2 (1 : ℚ) 2).crossProduct (vec2 3 4)).x = 0 ∧
      ¬ ((vec2 (1 : ℚ) 2).crossProduct (vec2 3 4)).Mirror) := by
  simp only [vec2, ofSize_two_set_eq]
  refine ⟨?_, ?_, ?_, ?_, ?_, ?_, ?_⟩
  · simp [Vector.Mirror]
  · simp [Vector.Mirror, Vector.add_eq]
    norm_num
  · simp [Vector.Mirror, Vector.sub_eq]
    norm_num
  · simp [Vector.Mirror, Vector.mul_eq]
  · simp [Vector.Mirror, Vector.div_eq]
    norm_num
  · simp [Vector.Mirror, Vector.scalarMult_eq]
  · simp [Vector.Mirror, Vector.crossProduct, Vector.ofSize_eq]
    norm_num

/-- C10 (code defect). `crossProduct` and `normalizedVec` write `components` of a freshly
constructed vector and return it without `updatelen()`: for `(1, 0) x (0, 1)` the result has
component 1 and `sqr_length` 0, and the normalized copy of `(3, 4)` has components
`(3/5, 4/5)` and `sqr_length` 0, `length` 0, although both operands satisfy the cached-length
invariant. -/
theorem C10_cross_and_normalized_skip_updatelen :
    ((vec2 (1 : ℚ) 0).LenOK ∧ (vec2 (0 : ℚ) 1).LenOK ∧ (vec2 (3 : ℚ) 4).LenOK) ∧
    (((vec2 (1 : ℚ) 0).crossProduct (vec2 0 1)).size = 1 ∧
      ((vec2 (1 : ℚ) 0).crossProduct (vec2 0 1)).components 0 = 1 ∧
      ((vec2 (1 : ℚ) 0).crossProduct (vec2 0 1)).sumSq = 1 ∧
      ((vec2 (1 : ℚ) 0).crossProduct (vec2 0 1)).sqr_length = 0 ∧
      ¬ ((vec2 (1 : ℚ) 0).crossProduct (vec2 0 1)).LenOK) ∧
    ((vec2 (3 : ℚ) 4).normalizedVec.size = 2 ∧
      (vec2 (3 : ℚ) 4).normalizedVec.components 0 = 3 / 5 ∧
      (vec2 (3 : ℚ) 4).normalizedVec.components 1 = 4 / 5 ∧
      (vec2 (3 : ℚ) 4).normalizedVec.sumSq = 1 ∧
      (vec2 (3 : ℚ) 4).normalizedVec.sqr_length = 0 ∧
      (vec2 (3 : ℚ) 4).normalizedVec.length = 0 ∧
      ¬ (vec2 (3 : ℚ) 4).normalizedVec.LenOK) := by
  have h25 : CMath.sqrt (25 : ℚ) = 5 := by
    have h := CMath.sqrt_mul_self (5 : ℚ)
    norm_num at h
    exact h
  simp only [vec2, ofSize_two_set_eq]
  refine ⟨?_, ?_, ?_⟩
  · simp [Vector.LenOK, Vector.sumSq, Fin.sum_univ_succ]
  · simp [Vector.LenOK, Vector.sumSq, Vector.crossProduct, Vector.ofSize_eq, Fin.sum_univ_succ]
  · simp [Vector.LenOK, Vector.sumSq, Vector.normalizedVec_eq, Fin.sum_univ_succ]
    norm_num [h25]

/-- C11. For vectors `A`, `B` with sizes in `0..12`, `A + B` and `A - B` have the size of `A`;
below `min(A.size, B.size)` component `i` is `A[i] + B[i]` (resp. `A[i] - B[i]`), and from
`min(A.size, B.size)` on every component is 0, so the trailing components of the longer
operand are dropped. The operators are functions of their operands and return a new value. -/
theorem C11_add_sub_shared_prefix (A B : Vector C)
    (_hA : 0 ≤ A.size ∧ A.size ≤ 12) (_hB : 0 ≤ B.size ∧ B.size ≤ 12) :
    ((A.add B).size = A.size ∧
      ∀ i : Fin 12,
        ((i.val : Int) < min A.size B.size →
          (A.add B).components i = A.components i + B.components i) ∧
        (min A.size B.size ≤ (i.val : Int) → (A.add B).components i = 0)) ∧
    ((A.sub B).size = A.size ∧
      ∀ i : Fin 12,
        ((i.val : Int) < min A.size B.size →
          (A.sub B).components i = A.components i - B.components i) ∧
        (min A.size B.size ≤ (i.val : Int) → (A.sub B).components i = 0)) := by
  refine ⟨⟨Vector.add_size A B, fun i => ⟨?_, ?_⟩⟩,
    ⟨by simp [Vector.sub_eq], fun i => ⟨?_, ?_⟩⟩⟩
  · intro h
    simp only [Vector.add_eq, Vector.updatelen_components, if_pos h]
  · intro h
    simp only [Vector.add_eq, Vector.updatelen_components, if_neg (not_lt.2 h)]
  · intro h
    simp only [Vector.sub_eq, Vector.updatelen_components, if_pos h]
  · intro h
    simp only [Vector.sub_eq, Vector.updatelen_components, if_neg (not_lt.2 h)]

/-- C11 (witness): `A = (1, 2)` of size 2 and `B = Vector(3)`. -/
theorem C11_add_sub_shared_prefix_witness :
    (((vec2 (1 : ℚ) 2).add (Vector.ofSize 3)).size = (vec2 (1 : ℚ) 2).size ∧
      ∀ i : Fin 12,
        ((i.val : Int) < min (vec2 (1 : ℚ) 2).size (Vector.ofSize 3 : Vector ℚ).size →
          ((vec2 (1 : ℚ) 2).add (Vector.ofSize 3)).components i
            = (vec2 (1 : ℚ) 2).components i + (Vector.ofSize 3 : Vector ℚ).components i) ∧
        (min (vec2 (1 : ℚ) 2).size (Vector.ofSize 3 : Vector ℚ).size ≤ (i.val : Int) →
          ((vec2 (1 : ℚ) 2).add (Vector.ofSize 3)).components i = 0)) ∧
    (((vec2 (1 : ℚ) 2).sub (Vector.ofSize 3)).size = (vec2 (1 : ℚ) 2).size ∧
      ∀ i : Fin 12,
        ((i.val : Int) < min (vec2 (1 : ℚ) 2).size (Vector.ofSize 3 : Vector ℚ).size →
          ((vec2 (1 : ℚ) 2).sub (Vector.ofSize 3)).components i
            = (vec2 (1 : ℚ) 2).components i - (Vector.ofSize 3 : Vector ℚ).components i) ∧
        (min (vec2 (1 : ℚ) 2).size (Vector.ofSize 3 : Vector ℚ).size ≤ (i.val : Int) →
          ((vec2 (1 : ℚ) 2).sub (Vector.ofSize 3)).components i = 0)) :=
  C11_add_sub_shared_prefix (vec2 1 2) (Vector.ofSize 3)
    (by simp [vec2, ofSize_two_set_eq]) (by simp [Vector.ofSize_eq])

/-- C12. For `A`, `B` of equal size `n` (`0 ≤ n ≤ 12`), `(A + B) - B` has size `n` and its
component `i` is `A[i]` for every `i < n`. -/
theorem C12_add_then_sub_restores (A B : Vector C) (n : Int) (hA : A.size = n)
    (hB : B.size = n) (_hn : 0 ≤ n ∧ n ≤ 12) :
    ((A.add B).sub B).size = n ∧
      ∀ i : Fin 12, (i.val : Int) < n →
        ((A.add B).sub B).components i = A.components i := by
  refine ⟨by simp [Vector.sub_eq, Vector.add_eq, hA], ?_⟩
  intro i hi
  simp [Vector.sub_eq, Vector.add_eq, hA, hB, hi]

/-- C12 (witness): `A = (1, 2)`, `B = (3, 4)`, `n = 2`. -/
theorem C12_add_then_sub_restores_witness :
    (((vec2 (1 : ℚ) 2).add (vec2 3 4)).sub (vec2 3 4)).size = 2 ∧
      ∀ i : Fin 12, (i.val : Int) < 2 →
        (((vec2 (1 : ℚ) 2).add (vec2 3 4)).sub (vec2 3 4)).components i
          = (vec2 (1 : ℚ) 2).components i :=
  C12_add_then_sub_restores (vec2 1 2) (vec2 3 4) 2 (by simp [vec2, ofSize_two_set_eq])
    (by simp [vec2, ofSize_two_set_eq]) (by norm_num)

/-- C13 (code defect). `normalizedVec()` fills the components of a freshly constructed vector
and returns it without `updatelen()`, so the `length` field of the result is the
constructor's 0 for every `A`, never 1; for instance `A = (3, 4)` has a consistent cached
length 5 and its normalized copy has `length` 0. -/
theorem C13_normalizedVec_length_is_zero :
    ((vec2 (3 : C) 4).LenOK ∧ (vec2 (3 : C) 4).length = 5 ∧
      (vec2 (3 : C) 4).normalizedVec.length = 0) ∧
    ∀ A : Vector C, A.normalizedVec.length = 0 ∧ A.normalizedVec.sqr_length = 0 ∧
      A.normalizedVec.length ≠ 1 := by
  have h25 : CMath.sqrt ((3 : C) * 3 + 4 * 4) = 5 := by
    have h := CMath.sqrt_mul_self (5 : C)
    rw [abs_of_pos (by norm_num : (0 : C) < 5)] at h
    rw [← h]
    norm_num
  have hs : (vec2 (3 : C) 4).sumSq = 3 * 3 + 4 * 4 := by
    simp [vec2, ofSize_two_set_eq, Vector.sumSq, Fin.sum_univ_succ]
  refine ⟨⟨⟨?_, ?_⟩, ?_, ?_⟩, fun A => ?_⟩
  · rw [hs]
    simp [vec2, ofSize_two_set_eq]
  · simp [vec2, ofSize_two_set_eq]
  · simp only [vec2, ofSize_two_set_eq]
    exact h25
  · simp [Vector.normalizedVec_eq]
  · simp [Vector.normalizedVec_eq]

/-- C14. When the sizes of `A` and `B` are not both 2 and not both 3, `A.crossProduct(B)` is
the vector `Vector(0)`: size 0, every component 0, `length` and `sqr_length` 0, and `x`, `y`,
`z` 0. The function is total and has no error result. -/
theorem C14_crossProduct_other_sizes_is_empty (A B : Vector C)
    (h2 : ¬ (A.size = 2 ∧ B.size = 2)) (h3 : ¬ (A.size = 3 ∧ B.size = 3)) :
    A.crossProduct B = Vector.ofSize 0 ∧
    (A.crossProduct B).size = 0 ∧ (∀ j : Fin 12, (A.crossProduct B).components j = 0) ∧
    (A.crossProduct B).length = 0 ∧ (A.crossProduct B).sqr_length = 0 ∧
    (A.crossProduct B).x = 0 ∧ (A.crossProduct B).y = 0 ∧ (A.crossProduct B).z = 0 := by
  have h : A.crossProduct B = Vector.ofSize 0 := by
    unfold Vector.crossProduct
    rw [if_neg h2, if_neg h3]
  rw [h]
  simp [Vector.ofSize_eq]

/-- C14 (witness): a mixed pair, `A = (1, 2)` of size 2 and `B = Vector(3)`. -/
theorem C14_crossProduct_other_sizes_is_empty_witness :
    (vec2 (1 : ℚ) 2).crossProduct (Vector.ofSize 3) = Vector.ofSize 0 ∧
    ((vec2 (1 : ℚ) 2).crossProduct (Vector.ofSize 3)).size = 0 ∧
    (∀ j : Fin 12, ((vec2 (1 : ℚ) 2).crossProduct (Vector.ofSize 3)).components j = 0) ∧
    ((vec2 (1 : ℚ) 2).crossProduct (Vector.ofSize 3)).length = 0 ∧
    ((vec2 (1 : ℚ) 2).crossProduct (Vector.ofSize 3)).sqr_length = 0 ∧
    ((vec2 (1 : ℚ) 2).crossProduct (Vector.ofSize 3)).x = 0 ∧
    ((vec2 (1 : ℚ) 2).crossProduct (Vector.ofSize 3)).y = 0 ∧
    ((vec2 (1 : ℚ) 2).crossProduct (Vector.ofSize 3)).z = 0 :=
  C14_crossProduct_other_sizes_is_empty (vec2 1 2) (Vector.ofSize 3)
    (by simp [Vector.ofSize_eq]) (by simp [vec2, ofSize_two_set_eq])

/-- C15. For `A`, `B` of size 2, `A.crossProduct(B)` has size 1 and its component 0 is
`A.x * B.y - A.y * B.x` (read from the `x`, `y` fields of the operands). -/
theorem C15_crossProduct_2d (A B : Vector C) (hA : A.size = 2) (hB : B.size = 2) :
    (A.crossProduct B).size = 1 ∧
      (A.crossProduct B).components 0 = A.x * B.y - A.y * B.x := by
  simp [Vector.crossProduct, hA, hB, Vector.ofSize_eq]

/-- C15 (witness): `A = (1, 2)`, `B = (3, 4)`. -/
theorem C15_crossProduct_2d_witness :
    ((vec2 (1 : ℚ) 2).crossProduct (vec2 3 4)).size = 1 ∧
      ((vec2 (1 : ℚ) 2).crossProduct (vec2 3 4)).components 0
        = (vec2 (1 : ℚ) 2).x * (vec2 (3 : ℚ) 4).y
          - (vec2 (1 : ℚ) 2).y * (vec2 (3 : ℚ) 4).x :=
  C15_crossProduct_2d (vec2 1 2) (vec2 3 4) (by simp [vec2, ofSize_two_set_eq])
    (by simp [vec2, ofSize_two_set_eq])

theorem Vector.dotProduct_eq (A B : Vector C) :
    A.dotProduct B
      = ∑ i : Fin 12, if (i.val : Int) < min B.size A.size
          then B.components i * A.components i else 0 := by
  unfold Vector.dotProduct
  rw [forLoop_sum (min B.size A.size) (fun i => B.components i * A.components i), zero_add]

/-- C16. For vectors of sizes in `0..12`, `A.dotProduct(B) = B.dotProduct(A)`, and both are
the sum of `A[i] * B[i]` over `i < min(A.size, B.size)`. -/
theorem C16_dotProduct_symmetric (A B : Vector C)
    (_hA : 0 ≤ A.size ∧ A.size ≤ 12) (_hB : 0 ≤ B.size ∧ B.size ≤ 12) :
    A.dotProduct B = B.dotProduct A ∧
    A.dotProduct B
      = ∑ i ∈ Finset.univ.filter (fun i : Fin 12 => (i.val : Int) < min A.size B.size),
          A.components i * B.components i := by
  have h : A.dotProduct B
      = ∑ i ∈ Finset.univ.filter (fun i : Fin 12 => (i.val : Int) < min A.size B.size),
          A.components i * B.components i := by
    rw [Vector.dotProduct_eq, Finset.sum_filter, min_comm]
    exact Finset.sum_congr rfl (fun i _ => by rw [mul_comm])
  refine ⟨?_, h⟩
  rw [Vector.dotProduct_eq, Vector.dotProduct_eq, min_comm]
  exact Finset.sum_congr rfl (fun i _ => by rw [mul_comm])

/-- C16 (witness): `A = (1, 2)` of size 2 and `B = Vector(3)`. -/
theorem C16_dotProduct_symmetric_witness :
    (vec2 (1 : ℚ) 2).dotProduct (Vector.ofSize 3)
      = (Vector.ofSize 3 : Vector ℚ).dotProduct (vec2 1 2) :=
  (C16_dotProduct_symmetric (vec2 1 2) (Vector.ofSize 3)
    (by simp [vec2, ofSize_two_set_eq]) (by simp [Vector.ofSize_eq])).1

/-- C17. `set(x1, y1)` on a vector of size below 2 and `set(x1, y1, z1)` on a vector of size
below 3 return the vector with every field unchanged; for size at least 2 (resp. 3) the
result has `components[0] = x = x1`, `components[1] = y = y1` (and `components[2] = z = z1`),
the same size, `sqr_length` equal to the sum of the squares of the active components and
`length` its square root. -/
theorem C17_set_noop_or_effect (v : Vector C) (x1 y1 z1 : C) :
    (v.size < 2 → v.set x1 y1 = v) ∧
    (v.size < 3 → v.set3 x1 y1 z1 = v) ∧
    (2 ≤ v.size →
      (v.set x1 y1).size = v.size ∧
      (v.set x1 y1).components 0 = x1 ∧ (v.set x1 y1).x = x1 ∧
      (v.set x1 y1).components 1 = y1 ∧ (v.set x1 y1).y = y1 ∧
      (v.set x1 y1).sqr_length = (v.set x1 y1).sumSq ∧
      (v.set x1 y1).length = CMath.sqrt (v.set x1 y1).sqr_length) ∧
    (3 ≤ v.size →
      (v.set3 x1 y1 z1).size = v.size ∧
      (v.set3 x1 y1 z1).components 0 = x1 ∧ (v.set3 x1 y1 z1).x = x1 ∧
      (v.set3 x1 y1 z1).components 1 = y1 ∧ (v.set3 x1 y1 z1).y = y1 ∧
      (v.set3 x1 y1 z1).components 2 = z1 ∧ (v.set3 x1 y1 z1).z = z1 ∧
      (v.set3 x1 y1 z1).sqr_length = (v.set3 x1 y1 z1).sumSq ∧
      (v.set3 x1 y1 z1).length = CMath.sqrt (v.set3 x1 y1 z1).sqr_length) := by
  refine ⟨?_, ?_, ?_, ?_⟩
  · intro h
    simp [Vector.set, h]
  · intro h
    simp [Vector.set3, h]
  · intro h
    have h0 : 0 < v.size := by linarith
    have h1 : 1 < v.size := by linarith
    have hset : v.set x1 y1 = Vector.syncComponents { v with x := x1, y := y1 } := by
      simp [Vector.set, not_lt.2 h]
    have hL : (v.set x1 y1).LenOK := by
      rw [hset]
      exact Vector.lenOK_syncComponents _
    refine ⟨?_, ?_, ?_, ?_, ?_, hL.1, hL.2⟩
    · simp [hset, Vector.syncComponents]
    · by_cases h2 : 2 < v.size <;> simp [hset, Vector.syncComponents, h0, h1, h2]
    · simp [hset, Vector.syncComponents]
    · by_cases h2 : 2 < v.size <;> simp [hset, Vector.syncComponents, h0, h1, h2]
    · simp [hset, Vector.syncComponents]
  · intro h
    have h0 : 0 < v.size := by linarith
    have h1 : 1 < v.size := by linarith
    have h2 : 2 < v.size := by linarith
    have hset : v.set3 x1 y1 z1
        = Vector.syncComponents { v with x := x1, y := y1, z := z1 } := by
      simp [Vector.set3, not_lt.2 h]
    have hL : (v.set3 x1 y1 z1).LenOK := by
      rw [hset]
      exact Vector.lenOK_syncComponents _
    refine ⟨?_, ?_, ?_, ?_, ?_, ?_, ?_, hL.1, hL.2⟩ <;>
      simp [hset, Vector.syncComponents, h0, h1, h2]

/-- C17 (witness): the no-op branches at `Vector(1)` and `Vector(2)`, the effective branches
at `Vector(2)` and `Vector(3)`. -/
theorem C17_set_noop_or_effect_witness :
    (Vector.ofSize 1 : Vector ℚ).set 7 8 = Vector.ofSize 1 ∧
    (Vector.ofSize 2 : Vector ℚ).set3 7 8 9 = Vector.ofSize 2 ∧
    ((Vector.ofSize 2 : Vector ℚ).set 7 8).components 1 = 8 ∧
    ((Vector.ofSize 3 : Vector ℚ).set3 7 8 9).z = 9 :=
  ⟨(C17_set_noop_or_effect (Vector.ofSize 1) 7 8 9).1 (by simp [Vector.ofSize_eq]),
    (C17_set_noop_or_effect (Vector.ofSize 2) 7 8 9).2.1 (by simp [Vector.ofSize_eq]),
    ((C17_set_noop_or_effect (Vector.ofSize 2) 7 8 9).2.2.1
      (by simp [Vector.ofSize_eq])).2.2.2.1,
    ((C17_set_noop_or_effect (Vector.ofSize 3) 7 8 9).2.2.2
      (by simp [Vector.ofSize_eq])).2.2.2.2.2.2.1⟩

/-! ## Matrix: closed forms -/

namespace Matrix

theorem set_fields [CTrig C] (m : Matrix C) (rad : C) :
    (m.set rad).angle = rad ∧
    (m.set rad).components 0 = CTrig.cos rad ∧ (m.set rad).components 1 = -CTrig.sin rad ∧
    (m.set rad).components 2 = CTrig.sin rad ∧ (m.set rad).components 3 = CTrig.cos rad := by
  simp [set, Function.update]

theorem new_fields [CTrig C] (rad : C) :
    (new rad : Matrix C).angle = rad ∧
    (new rad : Matrix C).components 0 = CTrig.cos rad ∧
    (new rad : Matrix C).components 1 = -CTrig.sin rad ∧
    (new rad : Matrix C).components 2 = CTrig.sin rad ∧
    (new rad : Matrix C).components 3 = CTrig.cos rad :=
  set_fields _ rad

theorem swapOffDiagonal_eq (c : Fin 4 → C) :
    swapOffDiagonal c 0 = c 0 ∧ swapOffDiagonal c 1 = c 2 ∧ swapOffDiagonal c 2 = c 1 ∧
      swapOffDiagonal c 3 = c 3 := by
  simp [swapOffDiagonal, Function.update]

theorem mul_fields [CTrig C] (m rhs : Matrix C) :
    (m.mul rhs).angle = 0 ∧
    (m.mul rhs).components 0
      = m.components 0 * rhs.components 0 + m.components 1 * rhs.components 2 ∧
    (m.mul rhs).components 1
      = m.components 0 * rhs.components 1 + m.components 1 * rhs.components 3 ∧
    (m.mul rhs).components 2
      = m.components 2 * rhs.components 0 + m.components 3 * rhs.components 2 ∧
    (m.mul rhs).components 3
      = m.components 2 * rhs.components 1 + m.components 3 * rhs.components 3 := by
  refine ⟨(new_fields (0 : C)).1, ?_, ?_, ?_, ?_⟩ <;> simp [mul, Function.update]

/-- The product of `Matrix(a)` and `Matrix(0)`: the components of `Matrix(a)`, angle 0. -/
theorem new_mul_new_zero [CTrig C] (a : C) :
    ((new a).mul (new 0)).angle = 0 ∧
    ((new a).mul (new 0)).components 0 = CTrig.cos a ∧
    ((new a).mul (new 0)).components 1 = -CTrig.sin a ∧
    ((new a).mul (new 0)).components 2 = CTrig.sin a ∧
    ((new a).mul (new 0)).components 3 = CTrig.cos a := by
  obtain ⟨h, h0, h1, h2, h3⟩ := mul_fields (new a) (new (0 : C))
  obtain ⟨_, a0, a1, a2, a3⟩ := new_fields a
  obtain ⟨_, z0, z1, z2, z3⟩ := new_fields (0 : C)
  rw [h0, h1, h2, h3, a0, a1, a2, a3, z0, z1, z2, z3, CTrig.cos_zero, CTrig.sin_zero]
  refine ⟨h, ?_, ?_, ?_, ?_⟩ <;> ring

end Matrix

/-- The laws required of `cos` and `sin` in `CTrig` are laws of the real functions. -/
theorem trig_laws_hold_for_real :
    Real.cos 0 = 1 ∧ Real.sin 0 = 0 ∧ (∀ t : ℝ, Real.cos (-t) = Real.cos t) ∧
    (∀ t : ℝ, Real.sin (-t) = -Real.sin t) ∧
    (∀ t : ℝ, Real.cos t * Real.cos t + Real.sin t * Real.sin t = 1) := by
  refine ⟨Real.cos_zero, Real.sin_zero, Real.cos_neg, Real.sin_neg, fun t => ?_⟩
  have h := Real.cos_sq_add_sin_sq t
  nlinarith [h]

/-- C18 (code defect). The constructor and `set` establish the rotation-matrix invariant, but
`operator*` builds its result with `Matrix M(0.0)` and never writes `M.angle`: the product of
`Matrix(a)` and `Matrix(0)` has the components `(cos a, -sin a, sin a, cos a)` and the stored
angle 0, so it breaks the invariant whenever `sin a` is not 0. -/
theorem C18_product_has_stale_angle [CTrig C] (a : C) :
    (∀ (m : Matrix C) (rad : C), (m.set rad).RotOK) ∧ (Matrix.new a).RotOK ∧
    (∀ m rhs : Matrix C, (m.mul rhs).angle = 0) ∧
    ((Matrix.new a).mul (Matrix.new 0)).components 2 = CTrig.sin a ∧
    (CTrig.sin a ≠ 0 → ¬ ((Matrix.new a).mul (Matrix.new 0)).RotOK) := by
  refine ⟨?_, ?_, fun m rhs => (Matrix.mul_fields m rhs).1,
    (Matrix.new_mul_new_zero a).2.2.2.1, ?_⟩
  · intro m rad
    obtain ⟨h, h0, h1, h2, h3⟩ := Matrix.set_fields m rad
    exact ⟨by rw [h0, h], by rw [h1, h], by rw [h2, h], by rw [h3, h]⟩
  · obtain ⟨h, h0, h1, h2, h3⟩ := Matrix.new_fields a
    exact ⟨by rw [h0, h], by rw [h1, h], by rw [h2, h], by rw [h3, h]⟩
  · intro hs hrot
    obtain ⟨h, _, _, h2, _⟩ := Matrix.new_mul_new_zero a
    have h2r := hrot.2.2.1
    rw [h2, h, CTrig.sin_zero] at h2r
    exact hs h2r

/-- C18 (witness): the right angle, `t = 1` in the rational instance, where `sin` is 1. -/
theorem C18_product_has_stale_angle_witness :
    ¬ ((Matrix.new (1 : ℚ)).mul (Matrix.new 0)).RotOK :=
  (C18_product_has_stale_angle (1 : ℚ)).2.2.2.2 (by norm_num [CTrig.sin])

/-- C19. For every angle `t` the components of `Matrix(t) * Matrix(-t)` are `(1, 0, 0, 1)`,
and so are the components of `Matrix(0)`. -/
theorem C19_rotation_times_inverse_is_identity [CTrig C] (t : C) :
    (((Matrix.new t).mul (Matrix.new (-t))).components 0 = 1 ∧
      ((Matrix.new t).mul (Matrix.new (-t))).components 1 = 0 ∧
      ((Matrix.new t).mul (Matrix.new (-t))).components 2 = 0 ∧
      ((Matrix.new t).mul (Matrix.new (-t))).components 3 = 1) ∧
    ((Matrix.new (0 : C)).components 0 = 1 ∧ (Matrix.new (0 : C)).components 1 = 0 ∧
      (Matrix.new (0 : C)).components 2 = 0 ∧ (Matrix.new (0 : C)).components 3 = 1) := by
  obtain ⟨_, h0, h1, h2, h3⟩ := Matrix.mul_fields (Matrix.new t) (Matrix.new (-t))
  obtain ⟨_, a0, a1, a2, a3⟩ := Matrix.new_fields t
  obtain ⟨_, b0, b1, b2, b3⟩ := Matrix.new_fields (-t)
  obtain ⟨_, z0, z1, z2, z3⟩ := Matrix.new_fields (0 : C)
  have hp := CTrig.cos_sq_add_sin_sq t
  rw [h0, h1, h2, h3, a0, a1, a2, a3, b0, b1, b2, b3, z0, z1, z2, z3, CTrig.cos_neg,
    CTrig.sin_neg, CTrig.cos_zero, CTrig.sin_zero]
  refine ⟨⟨?_, ?_, ?_, ?_⟩, rfl, neg_zero, rfl, rfl⟩
  · linear_combination hp
  · ring
  · ring
  · linear_combination hp

/-- C20 (code defect). `transpose()` constructs its result from the stored angle
(`Matrix A(angle)`) and swaps the off-diagonal entries of that, not of the current
components. It agrees with `transposeThis()` on a matrix fresh from the constructor, but not
after `transposeThis()` (which leaves `angle` as it was) nor after `operator*` (which leaves
`angle` at 0): there the result differs from the swapped current components whenever `sin a`
is not 0. -/
theorem C20_transpose_rebuilds_from_angle [CTrig C] (a : C) :
    (Matrix.new a).transpose.components = (Matrix.new a).transposeThis.components ∧
    ((Matrix.new a).transposeThis.transpose.components 1 = CTrig.sin a ∧
      (Matrix.new a).transposeThis.transposeThis.components 1 = -CTrig.sin a) ∧
    (((Matrix.new a).mul (Matrix.new 0)).transpose.components 1 = 0 ∧
      ((Matrix.new a).mul (Matrix.new 0)).transposeThis.components 1 = CTrig.sin a) ∧
    (CTrig.sin a ≠ 0 →
      (Matrix.new a).transposeThis.transpose.components
          ≠ (Matrix.new a).transposeThis.transposeThis.components ∧
      ((Matrix.new a).mul (Matrix.new 0)).transpose.components
          ≠ ((Matrix.new a).mul (Matrix.new 0)).transposeThis.components) := by
  obtain ⟨ha, a0, a1, a2, a3⟩ := Matrix.new_fields a
  obtain ⟨_, z0, z1, z2, z3⟩ := Matrix.new_fields (0 : C)
  obtain ⟨hp, p0, p1, p2, p3⟩ := Matrix.new_mul_new_zero a
  have e1 : (Matrix.new a).transposeThis.transpose.components 1 = CTrig.sin a := by
    simp only [Matrix.transpose, Matrix.transposeThis, (Matrix.swapOffDiagonal_eq _).2.1, ha, a2]
  have e2 : (Matrix.new a).transposeThis.transposeThis.components 1 = -CTrig.sin a := by
    simp only [Matrix.transposeThis, (Matrix.swapOffDiagonal_eq _).2.1,
      (Matrix.swapOffDiagonal_eq _).2.2.1, a1]
  have e3 : ((Matrix.new a).mul (Matrix.new 0)).transpose.components 1 = 0 := by
    simp only [Matrix.transpose, (Matrix.swapOffDiagonal_eq _).2.1, hp, z2, CTrig.sin_zero]
  have e4 : ((Matrix.new a).mul (Matrix.new 0)).transposeThis.components 1 = CTrig.sin a := by
    simp only [Matrix.transposeThis, (Matrix.swapOffDiagonal_eq _).2.1, p2]
  refine ⟨?_, ⟨e1, e2⟩, ⟨e3, e4⟩, ?_⟩
  · simp only [Matrix.transpose, Matrix.transposeThis, ha]
  · intro hs
    refine ⟨fun h => ?_, fun h => ?_⟩
    · have h1 := congrFun h 1
      rw [e1, e2] at h1
      exact hs (by linarith)
    · have h1 := congrFun h 1
      rw [e3, e4] at h1
      exact hs h1.symm

/-- C20 (witness): the right angle, `t = 1` in the rational instance, where `sin` is 1. -/
theorem C20_transpose_rebuilds_from_angle_witness :
    (Matrix.new (1 : ℚ)).transposeThis.transpose.components
        ≠ (Matrix.new (1 : ℚ)).transposeThis.transposeThis.components ∧
    ((Matrix.new (1 : ℚ)).mul (Matrix.new 0)).transpose.components
        ≠ ((Matrix.new (1 : ℚ)).mul (Matrix.new 0)).transposeThis.components :=
  (C20_transpose_rebuilds_from_angle (1 : ℚ)).2.2.2 (by norm_num [CTrig.sin])


/-! ## Body::Update: the angular statements and the impulse -/

namespace Body

theorem Update_impulse (b : Body C) (dt : C) :
    (b.Update dt).impulse = b.impulse.assign (Vector.ofSize 0) := rfl

theorem Update_angular_acc (b : Body C) (dt : C) :
    (b.Update dt).angular_acc
      = b.angular_acc.assign (Vector.ofSize (toInt ((b.torque +
          ((b.angular_drag.mul (-1)).assign
            ((b.angular_drag.mul (-1)).mul b.angular_vel.x)).x) / b.inertia))) := rfl

theorem Update_angular_vel (b : Body C) (dt : C) :
    (b.Update dt).angular_vel
      = b.angular_vel.assign (b.angular_vel.add ((b.Update dt).angular_acc.mul dt)) := rfl

theorem Update_rotation (b : Body C) (dt : C) :
    (b.Update dt).rotation
      = b.rotation.assign (b.rotation.add ((b.Update dt).angular_vel.mul dt)) := rfl

/-- Whatever the torque, the vector stored into `angular_acc` is a zero vector: the quotient
only chooses its dimension. -/
theorem Update_angular_acc_isZero (b : Body C) (dt : C) : (b.Update dt).angular_acc.IsZero := by
  rw [Update_angular_acc]
  apply Vector.IsZero.assign
  intro j _
  simp [Vector.ofSize_eq]

end Body

/-- C21. Linear step of `Body::Update` for two-dimensional position, velocity, force, gravity
and linear drag `d`, mass `m ≠ 0`: the acceleration is `(force + (-d) * v0.x) / m + gravity`
with the drag scaled by the `x` field of the old velocity only, the velocity is
`v0 + acceleration * dt`, the position is `p0 + velocity * dt` with the new velocity; all
three have size 2 and their `x`, `y` fields equal the new components. -/
theorem C21_linear_step (b : Body C) (dt : C) (_hm : b.mass ≠ 0)
    (hp : b.position.size = 2) (hv : b.velocity.size = 2) (hf : b.force.size = 2)
    (hg : b.gravity.size = 2) (hd : b.liniar_drag.size = 2) :
    ((b.Update dt).acceleration.size = 2 ∧
      (b.Update dt).acceleration.components 0
        = (b.force.components 0 + -(b.liniar_drag.components 0) * b.velocity.x) / b.mass
          + b.gravity.components 0 ∧
      (b.Update dt).acceleration.components 1
        = (b.force.components 1 + -(b.liniar_drag.components 1) * b.velocity.x) / b.mass
          + b.gravity.components 1 ∧
      (b.Update dt).acceleration.x = (b.Update dt).acceleration.components 0 ∧
      (b.Update dt).acceleration.y = (b.Update dt).acceleration.components 1) ∧
    ((b.Update dt).velocity.size = 2 ∧
      (b.Update dt).velocity.components 0
        = b.velocity.components 0 + (b.Update dt).acceleration.components 0 * dt ∧
      (b.Update dt).velocity.components 1
        = b.velocity.components 1 + (b.Update dt).acceleration.components 1 * dt ∧
      (b.Update dt).velocity.x = (b.Update dt).velocity.components 0 ∧
      (b.Update dt).velocity.y = (b.Update dt).velocity.components 1) ∧
    ((b.Update dt).position.size = 2 ∧
      (b.Update dt).position.components 0
        = b.position.components 0 + (b.Update dt).velocity.components 0 * dt ∧
      (b.Update dt).position.components 1
        = b.position.components 1 + (b.Update dt).velocity.components 1 * dt ∧
      (b.Update dt).position.x = (b.Update dt).position.components 0 ∧
      (b.Update dt).position.y = (b.Update dt).position.components 1) := by
  simp only [Body.Update, Vector.add_eq, Vector.mul_eq, Vector.div_eq, Vector.assign_eq,
    Vector.updatelen_size, Vector.updatelen_components, Vector.updatelen_x, hf, hp, hv, hg, hd]
  refine ⟨?_, ?_, ?_⟩ <;> simp

/-- C21 (witness): the sample body with velocity `(3, 4)`, gravity `(0, -10)` and linear drag
`(1, 2)`, `dt = 2`. -/
theorem C21_linear_step_witness :
    (sampleBodyDragged.Update 2).acceleration.components 0
      = (sampleBodyDragged.force.components 0
          + -(sampleBodyDragged.liniar_drag.components 0) * sampleBodyDragged.velocity.x)
        / sampleBodyDragged.mass + sampleBodyDragged.gravity.components 0 ∧
    (sampleBodyDragged.Update 2).velocity.components 0
      = sampleBodyDragged.velocity.components 0
        + (sampleBodyDragged.Update 2).acceleration.components 0 * 2 ∧
    (sampleBodyDragged.Update 2).position.components 0
      = sampleBodyDragged.position.components 0
        + (sampleBodyDragged.Update 2).velocity.components 0 * 2 := by
  have hw := C21_linear_step sampleBodyDragged 2
    (by norm_num [sampleBodyDragged, sampleBody, Body.new])
    (by simp [sampleBodyDragged, sampleBody, Body.new, vec2, ofSize_two_set_eq])
    (by simp [sampleBodyDragged, vec2, ofSize_two_set_eq])
    (by simp [sampleBodyDragged, sampleBody, Body.new, vec2, ofSize_two_set_eq])
    (by simp [sampleBodyDragged, vec2, ofSize_two_set_eq])
    (by simp [sampleBodyDragged, vec2, ofSize_two_set_eq])
  exact ⟨hw.1.2.1, hw.2.1.2.1, hw.2.2.2.1⟩

/-- C22 (code defect). The right-hand side of `angular_acc = (torque + drag_torque.x) /
inertia` is a `double` and reaches `operator=` through `Vector(int)`: what is stored is a zero
vector whose dimension is the truncated quotient. For the sample body with torque 3, inertia
1, angular velocity `(1, 2)` and zero two-dimensional angular drag the quotient is 3, and
after `Update(1)` `angular_acc` has size 3 and `x = 0` (not 3), and the angular velocity is
still `(1, 2)` (not `(4, 2)`). For every body the stored `angular_acc` is a zero vector. -/
theorem C22_angular_acc_is_a_zero_vector :
    (sampleBodyTorqued.angular_acc.size = 2 ∧ sampleBodyTorqued.angular_vel.size = 2 ∧
      sampleBodyTorqued.rotation.size = 2 ∧ sampleBodyTorqued.angular_drag.size = 2 ∧
      0 < sampleBodyTorqued.inertia) ∧
    (sampleBodyTorqued.torque
        + -(sampleBodyTorqued.angular_drag.x * sampleBodyTorqued.angular_vel.x))
      / sampleBodyTorqued.inertia = 3 ∧
    ((sampleBodyTorqued.Update 1).angular_acc.size = 3 ∧
      (sampleBodyTorqued.Update 1).angular_acc.x = 0 ∧
      (sampleBodyTorqued.Update 1).angular_acc.components 0 = 0) ∧
    (sampleBodyTorqued.angular_vel.components 0 = 1 ∧
      (sampleBodyTorqued.Update 1).angular_vel.components 0 = 1 ∧
      (sampleBodyTorqued.Update 1).angular_vel.x = 1) ∧
    (∀ (b : Body C) (dt : C), (b.Update dt).angular_acc.IsZero) := by
  have hq : toInt ((3 : ℚ)) = 3 := by
    simp only [toInt]
    norm_num
  refine ⟨?_, ?_, ?_, ?_, fun b dt => Body.Update_angular_acc_isZero b dt⟩
  · simp only [sampleBodyTorqued, sampleBody, vec2, ofSize_two_set_eq]
    simp [Body.new, Vector.ofSize_eq, Vector.Zero_eq]
  · simp only [sampleBodyTorqued, sampleBody, vec2, ofSize_two_set_eq]
    simp [Body.new, Vector.Zero_eq]
  · simp only [sampleBodyTorqued, sampleBody, vec2, ofSize_two_set_eq]
    simp [Body.Update, Body.new, Vector.new_eq, Vector.ofSize_eq, Vector.Zero_eq,
      Vector.add_eq, Vector.mul_eq, Vector.div_eq, Vector.assign_eq, hq]
  · simp only [sampleBodyTorqued, sampleBody, vec2, ofSize_two_set_eq]
    simp [Body.Update, Body.new, Vector.new_eq, Vector.ofSize_eq, Vector.Zero_eq,
      Vector.add_eq, Vector.mul_eq, Vector.div_eq, Vector.assign_eq, hq]

/-- C23 (code defect). With torque 0 and zero angular drag (of any dimension, in particular
the constructor's dimension 0) the quotient converted by `Vector(int)` is 0, so `angular_acc`
becomes a vector of dimension 0; `angular_vel + angular_acc * dt` then keeps
`min(2, 0) = 0` components of the angular velocity: after `Update(dt)` a two-dimensional
angular velocity is `(0, 0)` whatever it was, and the rotation is unchanged (not
`r0 + w0 * dt`). -/
theorem C23_angular_velocity_is_wiped (b : Body C) (dt : C) (_hI : 0 < b.inertia)
    (ht : b.torque = 0) (hd : b.angular_drag.IsZero) (hw : b.angular_vel.size = 2)
    (hr : b.rotation.size = 2) :
    (b.Update dt).angular_acc.size = 0 ∧
    ((b.Update dt).angular_vel.size = 2 ∧ (b.Update dt).angular_vel.components 0 = 0 ∧
      (b.Update dt).angular_vel.components 1 = 0 ∧ (b.Update dt).angular_vel.x = 0 ∧
      (b.Update dt).angular_vel.y = 0) ∧
    ((b.Update dt).rotation.size = 2 ∧
      (b.Update dt).rotation.components = b.rotation.components) := by
  have hx : ((b.angular_drag.mul (-1)).assign
      ((b.angular_drag.mul (-1)).mul b.angular_vel.x)).x = 0 := by
    by_cases h0 : 0 < b.angular_drag.size
    · have hd0 : b.angular_drag.components 0 = 0 := hd 0 (by simpa using h0)
      simp [Vector.assign_eq, Vector.mul_eq, h0, hd0]
    · simp [Vector.assign_eq, Vector.mul_eq, h0]
  have hacc : (b.Update dt).angular_acc.size = 0 := by
    rw [Body.Update_angular_acc, Vector.assign_size, hx, ht]
    simp [Vector.ofSize_eq, toInt]
  have hvel : (b.Update dt).angular_vel.size = 2 ∧
      (b.Update dt).angular_vel.components 0 = 0 ∧
      (b.Update dt).angular_vel.components 1 = 0 ∧ (b.Update dt).angular_vel.x = 0 ∧
      (b.Update dt).angular_vel.y = 0 := by
    rw [Body.Update_angular_vel]
    simp [Vector.assign_eq, Vector.add_eq, Vector.mul_eq, hw, hacc]
  have hz : ((b.Update dt).angular_vel.mul dt).IsZero := by
    apply Vector.IsZero.mul
    intro j hj
    rw [hvel.1] at hj
    have hj2 : j.val < 2 := by exact_mod_cast hj
    have hj01 : j = 0 ∨ j = 1 := by
      rcases j with ⟨n, hn⟩
      simp only [Fin.ext_iff]
      simp only at hj2
      interval_cases n <;> simp
    rcases hj01 with rfl | rfl
    · exact hvel.2.1
    · exact hvel.2.2.1
  refine ⟨hacc, hvel, ?_, ?_⟩
  · rw [Body.Update_rotation, Vector.assign_size, Vector.add_size, hr]
  · rw [Body.Update_rotation]
    apply Vector.assign_add_zero_components _ hz
    rw [Vector.mul_size, hvel.1, hr]

/-- C23 (witness): the sample body with angular velocity `(1, 2)`, torque 0 and the angular
drag of the constructor, `dt = 1`: the angular velocity `(1, 2)` becomes `(0, 0)`. -/
theorem C23_angular_velocity_is_wiped_witness :
    (sampleBodySpinning.angular_vel.components 0 = 1 ∧
      sampleBodySpinning.angular_vel.components 1 = 2) ∧
    ((sampleBodySpinning.Update 1).angular_vel.components 0 = 0 ∧
      (sampleBodySpinning.Update 1).angular_vel.components 1 = 0) ∧
    (sampleBodySpinning.Update 1).rotation.components
      = sampleBodySpinning.rotation.components := by
  have hw := C23_angular_velocity_is_wiped sampleBodySpinning 1
    (by norm_num [sampleBodySpinning, sampleBody, Body.new])
    (by simp [sampleBodySpinning, sampleBody, Body.new])
    (by simp [sampleBodySpinning, sampleBody, Body.new, Vector.new_eq, Vector.IsZero])
    (by simp [sampleBodySpinning, vec2, ofSize_two_set_eq])
    (by simp [sampleBodySpinning, sampleBody, Body.new, Vector.ofSize_eq])
  refine ⟨?_, ⟨hw.2.1.2.1, hw.2.1.2.2.1⟩, hw.2.2.2⟩
  simp only [sampleBodySpinning, vec2, ofSize_two_set_eq]
  simp

/-- C24 (as amended). `Body::Update` never reads the impulse: two bodies that differ only in
their impulse end with the same position, velocity and acceleration. Afterwards the impulse
has size 0, `length` 0 and `sqr_length` 0; `operator=` from the 0-dimension vector writes
neither `x`, `y`, `z` nor any component slot, so these keep the values they had before the
call (and read 0 when they were 0 before). -/
theorem C24_impulse_is_dropped_not_applied (b : Body C) (i1 i2 : Vector C) (dt : C) :
    (({ b with impulse := i1 }).Update dt).position
        = (({ b with impulse := i2 }).Update dt).position ∧
    (({ b with impulse := i1 }).Update dt).velocity
        = (({ b with impulse := i2 }).Update dt).velocity ∧
    (({ b with impulse := i1 }).Update dt).acceleration
        = (({ b with impulse := i2 }).Update dt).acceleration ∧
    ((b.Update dt).impulse.size = 0 ∧ (b.Update dt).impulse.length = 0 ∧
      (b.Update dt).impulse.sqr_length = 0) ∧
    ((b.Update dt).impulse.x = b.impulse.x ∧ (b.Update dt).impulse.y = b.impulse.y ∧
      (b.Update dt).impulse.z = b.impulse.z ∧
      (b.Update dt).impulse.components = b.impulse.components) := by
  refine ⟨rfl, rfl, rfl, ?_, ?_, ?_, ?_, ?_⟩
  · simp [Body.Update_impulse, Vector.assign_eq, Vector.ofSize_eq]
  · simp [Body.Update_impulse, Vector.assign_eq, Vector.ofSize_eq]
  · simp [Body.Update_impulse, Vector.assign_eq, Vector.ofSize_eq]
  · simp [Body.Update_impulse, Vector.assign_eq, Vector.ofSize_eq]
  · funext j
    have hj : ¬ ((j.val : Int) < 0) := not_lt.2 (by omega)
    simp [Body.Update_impulse, Vector.assign_eq, Vector.ofSize_eq, hj]

/-- C24 (counterexample). The sample body with impulse `(5, 7)`: after `Update(1)` the
impulse has size 0 and length 0, and its `x` and `y` fields still read 5 and 7. -/
theorem C24_counterexample :
    (sampleBodyHit.impulse.size = 2 ∧ sampleBodyHit.impulse.x = 5 ∧
      sampleBodyHit.impulse.y = 7) ∧
    ((sampleBodyHit.Update 1).impulse.size = 0 ∧ (sampleBodyHit.Update 1).impulse.length = 0) ∧
    ((sampleBodyHit.Update 1).impulse.x = 5 ∧ (sampleBodyHit.Update 1).impulse.y = 7) ∧
    ¬ ((sampleBodyHit.Update 1).impulse.x = 0 ∧ (sampleBodyHit.Update 1).impulse.y = 0) := by
  have h : (sampleBodyHit.Update 1).impulse.x = 5 ∧ (sampleBodyHit.Update 1).impulse.y = 7 := by
    simp only [sampleBodyHit, vec2, ofSize_two_set_eq]
    simp [Body.Update_impulse, Vector.assign_eq, Vector.ofSize_eq]
  refine ⟨?_, ?_, h, ?_⟩
  · simp only [sampleBodyHit, vec2, ofSize_two_set_eq]
    simp
  · simp [Body.Update_impulse, Vector.assign_eq, Vector.ofSize_eq]
  · rw [h.1, h.2]
    norm_num

/-- C25. For a body whose position, velocity and force have size 2 and whose mass is not 0,
whatever its linear drag and gravity, after `Body::Update(dt)` the position, the velocity and
the acceleration each have size 2, `x = components[0]`, `y = components[1]`, and
`sqr_length` equal to the sum of the squares of the active components with `length` its
square root: each is written by `operator=`, which reloads `x`, `y` from the copied
components and copies the lengths that the operator on its right-hand side has just
recomputed. -/
theorem C25_update_keeps_vectors_well_formed (b : Body C) (dt : C) (_hm : b.mass ≠ 0)
    (hp : b.position.size = 2) (hv : b.velocity.size = 2) (hf : b.force.size = 2) :
    ((b.Update dt).position.size = 2 ∧ (b.Update dt).position.Mirror ∧
      (b.Update dt).position.LenOK) ∧
    ((b.Update dt).velocity.size = 2 ∧ (b.Update dt).velocity.Mirror ∧
      (b.Update dt).velocity.LenOK) ∧
    ((b.Update dt).acceleration.size = 2 ∧ (b.Update dt).acceleration.Mirror ∧
      (b.Update dt).acceleration.LenOK) := by
  have hM : ∀ v B : Vector C, (v.assign B).Mirror := fun v B =>
    (Vector.mirror_established v B 0 0 0 0 (fun _ => 0)).2.2.2.2.2
  have hL : ∀ v A B : Vector C, (v.assign (A.add B)).LenOK := fun v A B =>
    (Vector.lenOK_established v (A.add B) 0 0 0 0 0 (fun _ => 0)).2.2.2.2.2.1
      (Vector.lenOK_updatelen _)
  refine ⟨⟨?_, ?_, ?_⟩, ⟨?_, ?_, ?_⟩, ⟨?_, ?_, ?_⟩⟩
  · rw [Body.Update_position_size, hp]
  · rw [Body.Update_position]
    exact hM _ _
  · rw [Body.Update_position]
    exact hL _ _ _
  · rw [Body.Update_velocity_size, hv]
  · rw [Body.Update_velocity]
    exact hM _ _
  · rw [Body.Update_velocity]
    exact hL _ _ _
  · rw [Body.Update_acceleration_size, hf]
  · rw [Body.Update_acceleration]
    exact hM _ _
  · rw [Body.Update_acceleration]
    exact hL _ _ _

/-- C25 (witness): the sample body as `AddBody` builds it (linear drag of dimension 0),
`dt = 1`. -/
theorem C25_update_keeps_vectors_well_formed_witness :
    ((sampleBody.Update 1).position.size = 2 ∧ (sampleBody.Update 1).position.Mirror ∧
      (sampleBody.Update 1).position.LenOK) ∧
    ((sampleBody.Update 1).velocity.size = 2 ∧ (sampleBody.Update 1).velocity.Mirror ∧
      (sampleBody.Update 1).velocity.LenOK) ∧
    ((sampleBody.Update 1).acceleration.size = 2 ∧ (sampleBody.Update 1).acceleration.Mirror ∧
      (sampleBody.Update 1).acceleration.LenOK) :=
  C25_update_keeps_vectors_well_formed sampleBody 1
    (by norm_num [sampleBody, Body.new])
    (by simp [sampleBody, Body.new, vec2, ofSize_two_set_eq])
    (by simp [sampleBody, Body.new, vec2, ofSize_two_set_eq])
    (by simp [sampleBody, Body.new, vec2, ofSize_two_set_eq])

theorem vec3_eq (a b c : C) :
    (vec3 a b c).size = 3 ∧ (vec3 a b c).x = a ∧ (vec3 a b c).y = b ∧ (vec3 a b c).z = c ∧
    (vec3 a b c).components 0 = a ∧ (vec3 a b c).components 1 = b ∧
    (vec3 a b c).components 2 = c := by
  simp [vec3, Vector.set3, Vector.ofSize_eq, Vector.syncComponents]

/-- On a vector of size at least 3 whose `z` field equals `components[2]`, `set(x1, y1)`
leaves `components[2]` and every higher slot as it was. -/
theorem Vector.set_keeps_tail_when_z_in_sync (V : Vector C) (x1 y1 : C) (h3 : 3 ≤ V.size)
    (hz : V.z = V.components 2) (j : Fin 12) (hj : 2 ≤ j.val) :
    (V.set x1 y1).components j = V.components j := by
  have h0 : 0 < V.size := by linarith
  have h1 : 1 < V.size := by linarith
  have h2 : 2 < V.size := by linarith
  have hj0 : j ≠ 0 := by
    intro h
    rw [h] at hj
    simp at hj
  have hj1 : j ≠ 1 := by
    intro h
    rw [h] at hj
    simp at hj
  by_cases hj2 : j = 2
  · rw [hj2]
    simp [Vector.set, Vector.syncComponents, not_lt.2 (by linarith : (2 : Int) ≤ V.size),
      h0, h1, h2, hz]
  · simp [Vector.set, Vector.syncComponents, not_lt.2 (by linarith : (2 : Int) ≤ V.size),
      h0, h1, h2, hj0, hj1, hj2]

/-- C26 (code defect). For `V = (1, 2, 3) + (4, 5, 6)` (size 3, `components[2] = 9`, and `z`
left at 0 by `operator+`), `V.set(7, 8)` runs `syncComponents()`, which stores the stale `z`
into `components[2]`: the third component becomes 0. -/
theorem C26_set_clobbers_third_component_of_operator_result :
    (((vec3 (1 : C) 2 3).add (vec3 4 5 6)).size = 3 ∧
      ((vec3 (1 : C) 2 3).add (vec3 4 5 6)).components 2 = 9 ∧
      ((vec3 (1 : C) 2 3).add (vec3 4 5 6)).z = 0) ∧
    ((((vec3 (1 : C) 2 3).add (vec3 4 5 6)).set 7 8).components 0 = 7 ∧
      (((vec3 (1 : C) 2 3).add (vec3 4 5 6)).set 7 8).components 1 = 8 ∧
      (((vec3 (1 : C) 2 3).add (vec3 4 5 6)).set 7 8).components 2 = 0) ∧
    (((vec3 (1 : C) 2 3).add (vec3 4 5 6)).set 7 8).components 2
      ≠ ((vec3 (1 : C) 2 3).add (vec3 4 5 6)).components 2 := by
  obtain ⟨s1, _, _, _, _, _, c1⟩ := vec3_eq (1 : C) 2 3
  obtain ⟨s2, _, _, _, _, _, c2⟩ := vec3_eq (4 : C) 5 6
  have hsz : ((vec3 (1 : C) 2 3).add (vec3 4 5 6)).size = 3 := by
    rw [Vector.add_size, s1]
  have hc2 : ((vec3 (1 : C) 2 3).add (vec3 4 5 6)).components 2 = 9 := by
    simp [Vector.add_eq, s1, s2, c1, c2]
    norm_num
  have hz : ((vec3 (1 : C) 2 3).add (vec3 4 5 6)).z = 0 := by
    simp [Vector.add_eq]
  have hset : (((vec3 (1 : C) 2 3).add (vec3 4 5 6)).set 7 8).components 0 = 7 ∧
      (((vec3 (1 : C) 2 3).add (vec3 4 5 6)).set 7 8).components 1 = 8 ∧
      (((vec3 (1 : C) 2 3).add (vec3 4 5 6)).set 7 8).components 2 = 0 := by
    simp [Vector.set, Vector.syncComponents, hsz, hz]
  refine ⟨⟨hsz, hc2, hz⟩, hset, ?_⟩
  rw [hset.2.2, hc2]
  norm_num

/-- C27. For every angle `t` and every vector `v`, `Matrix(t) * v` has size 2, components
`(cos t * v.x - sin t * v.y, sin t * v.x + cos t * v.y)`, `x` and `y` equal to those
components, and `sqr_length = v.x * v.x + v.y * v.y` with `length` its square root. -/
theorem C27_rotation_preserves_length [CTrig C] (t : C) (v : Vector C) :
    ((Matrix.new t).mulVec v).size = 2 ∧
    ((Matrix.new t).mulVec v).components 0 = CTrig.cos t * v.x - CTrig.sin t * v.y ∧
    ((Matrix.new t).mulVec v).components 1 = CTrig.sin t * v.x + CTrig.cos t * v.y ∧
    ((Matrix.new t).mulVec v).x = ((Matrix.new t).mulVec v).components 0 ∧
    ((Matrix.new t).mulVec v).y = ((Matrix.new t).mulVec v).components 1 ∧
    ((Matrix.new t).mulVec v).sqr_length = v.x * v.x + v.y * v.y ∧
    ((Matrix.new t).mulVec v).length = CMath.sqrt (v.x * v.x + v.y * v.y) := by
  obtain ⟨_, a0, a1, a2, a3⟩ := Matrix.new_fields t
  have hp := CTrig.cos_sq_add_sin_sq t
  have hs : (CTrig.cos t * v.x + -CTrig.sin t * v.y) * (CTrig.cos t * v.x + -CTrig.sin t * v.y)
      + (CTrig.sin t * v.x + CTrig.cos t * v.y) * (CTrig.sin t * v.x + CTrig.cos t * v.y)
      = v.x * v.x + v.y * v.y := by
    linear_combination (v.x * v.x + v.y * v.y) * hp
  simp only [Matrix.mulVec, ofSize_two_set_eq, a0, a1, a2, a3, hs]
  simp
  ring

end Physics2D
